import Mathlib

/-!
# HonorHub certificate pipeline — verification development

Shallow embedding of the certificate-issuance pipeline of the HonorHub
backend (Express/SQLite application): the PDF renderer helpers
(`wrapText`, `parseColor`, signature resolution), the email dispatcher's
placeholder substitution, and the certificate orchestrator routes
(single issue, bulk issue, resend) together with the template-default
bookkeeping.

JavaScript strings are modelled as `List Char`; the JS falsiness of `''`
and `null`/`undefined` is made explicit at each use site.  Widths
returned by the font metric are modelled as rationals.  Database tables
are lists of rows, the `uuid`/`CURRENT_TIMESTAMP`/PDF-renderer/email-
provider environment is passed in as explicit parameters or oracle
functions, mirroring the control flow of the route handlers.
-/

set_option autoImplicit false

namespace HonorHub

/-! ## JS strings: `String.prototype.split(' ')` and join -/

/-- `text.split(' ')` from JS: split a character list at every space,
keeping empty fragments (JS keeps them too). -/
def splitSp : List Char → List (List Char)
  | [] => [[]]
  | c :: cs =>
    if c = ' ' then [] :: splitSp cs
    else
      match splitSp cs with
      | [] => [[c]]
      | w :: ws => (c :: w) :: ws

/-- Joining a list of lines with single spaces (used to state the
reconstruction property of the word wrapper). -/
def joinSp : List (List Char) → List Char
  | [] => []
  | [l] => l
  | l :: l' :: ls => l ++ ' ' :: joinSp (l' :: ls)

theorem splitSp_ne_nil (l : List Char) : splitSp l ≠ [] := by
  match l with
  | [] => simp [splitSp]
  | c :: cs =>
    simp only [splitSp]
    split
    · simp
    · split <;> simp

theorem splitSp_append_space (a b : List Char) :
    splitSp (a ++ ' ' :: b) = splitSp a ++ splitSp b := by
  induction a with
  | nil => simp [splitSp]
  | cons c cs ih =>
    by_cases hc : c = ' '
    · subst hc; simp [splitSp, ih]
    · have h1 := splitSp_ne_nil cs
      match h : splitSp cs with
      | [] => exact absurd h h1
      | w :: ws =>
        have h2 : splitSp (cs ++ ' ' :: b) = w :: (ws ++ splitSp b) := by
          rw [ih, h]; rfl
        simp only [List.cons_append, splitSp, hc, if_false, List.append_eq, h2, h]

theorem not_space_mem_splitSp (l : List Char) :
    ∀ w ∈ splitSp l, ' ' ∉ w := by
  induction l with
  | nil => simp [splitSp]
  | cons c cs ih =>
    by_cases hc : c = ' '
    · simpa [splitSp, hc] using ih
    · simp only [splitSp, hc, if_false]
      have h1 := splitSp_ne_nil cs
      match h : splitSp cs with
      | [] => exact absurd h h1
      | w :: ws =>
        intro x hx
        have ihw := ih w (by rw [h]; exact List.mem_cons_self w ws)
        have ihws : ∀ y ∈ ws, ' ' ∉ y := fun y hy =>
          ih y (by rw [h]; exact List.mem_cons_of_mem w hy)
        rcases List.mem_cons.mp hx with rfl | hx'
        · intro hsp
          rcases List.mem_cons.mp hsp with h' | h'
          · exact hc h'.symm
          · exact ihw h'
        · exact ihws x hx'

theorem splitSp_of_not_space (w : List Char) (h : ' ' ∉ w) :
    splitSp w = [w] := by
  induction w with
  | nil => rfl
  | cons c cs ih =>
    have hc : ¬ c = ' ' := fun hc => h (hc ▸ List.mem_cons_self c cs)
    have hcs : ' ' ∉ cs := fun hsp => h (List.mem_cons_of_mem c hsp)
    simp [splitSp, hc, ih hcs]

/-! ## The greedy word wrapper (`wrapText` in the PDF renderer) -/

/-- One iteration of the `words.forEach` loop in `wrapText`: the width
oracle stands for `font.widthOfTextAtSize(·, fontSize)`.  The pair holds
the `lines` accumulator and `currentLine` (the empty list is JS falsy). -/
def wrapStep (width : List Char → ℚ) (maxWidth : ℚ)
    (acc : List (List Char) × List Char) (word : List Char) :
    List (List Char) × List Char :=
  let testLine := if acc.2 = [] then word else acc.2 ++ ' ' :: word
  if maxWidth < width testLine ∧ acc.2 ≠ [] then (acc.1 ++ [acc.2], word)
  else (acc.1, testLine)

/-- `wrapText(text, font, fontSize, maxWidth)` from the PDF renderer:
split into words on spaces, greedily accumulate words into lines, flush
the pending line when adding the next word would overflow `maxWidth`,
and push the final pending line if non-empty. -/
def wrapText (width : List Char → ℚ) (maxWidth : ℚ) (text : List Char) :
    List (List Char) :=
  let r := (splitSp text).foldl (wrapStep width maxWidth) ([], [])
  if r.2 = [] then r.1 else r.1 ++ [r.2]

/-- Case characterization of one wrap iteration: empty current line
starts a new line with the word; otherwise overflow flushes, and a fit
extends the current line. -/
theorem wrapStep_eq (width : List Char → ℚ) (maxWidth : ℚ)
    (acc : List (List Char) × List Char) (word : List Char) :
    wrapStep width maxWidth acc word =
      if acc.2 = [] then (acc.1, word)
      else if maxWidth < width (acc.2 ++ ' ' :: word) then
        (acc.1 ++ [acc.2], word)
      else (acc.1, acc.2 ++ ' ' :: word) := by
  unfold wrapStep
  by_cases hc : acc.2 = [] <;> simp [hc]

theorem wrapFold_good (width : List Char → ℚ) (maxWidth : ℚ)
    (S : List Char → Prop) :
    ∀ (ws : List (List Char)), (∀ w ∈ ws, S w) →
    ∀ (acc : List (List Char) × List Char),
      (∀ l ∈ acc.1, width l ≤ maxWidth ∨ S l) →
      (acc.2 = [] ∨ width acc.2 ≤ maxWidth ∨ S acc.2) →
      (∀ l ∈ (ws.foldl (wrapStep width maxWidth) acc).1,
          width l ≤ maxWidth ∨ S l) ∧
        ((ws.foldl (wrapStep width maxWidth) acc).2 = [] ∨
          width (ws.foldl (wrapStep width maxWidth) acc).2 ≤ maxWidth ∨
          S (ws.foldl (wrapStep width maxWidth) acc).2) := by
  intro ws
  induction ws with
  | nil => intro _ acc h1 h2; exact ⟨h1, h2⟩
  | cons w ws ih =>
    intro hS acc h1 h2
    have hSw : S w := hS w (List.mem_cons_self w ws)
    have hS' : ∀ x ∈ ws, S x := fun x hx => hS x (List.mem_cons_of_mem w hx)
    simp only [List.foldl_cons]
    rw [wrapStep_eq]
    by_cases hc : acc.2 = []
    · rw [if_pos hc]
      exact ih hS' (acc.1, w) h1 (Or.inr (Or.inr hSw))
    · rw [if_neg hc]
      by_cases hw2 : maxWidth < width (acc.2 ++ ' ' :: w)
      · rw [if_pos hw2]
        apply ih hS' (acc.1 ++ [acc.2], w)
        · intro l hl
          rcases List.mem_append.mp hl with h | h
          · exact h1 l h
          · rcases List.mem_singleton.mp h with rfl
            rcases h2 with h2 | h2
            · exact absurd h2 hc
            · exact h2
        · exact Or.inr (Or.inr hSw)
      · rw [if_neg hw2]
        exact ih hS' (acc.1, acc.2 ++ ' ' :: w) h1
          (Or.inr (Or.inl (le_of_not_lt hw2)))

theorem wrapFold_words (width : List Char → ℚ) (maxWidth : ℚ) :
    ∀ (ws : List (List Char)), (∀ w ∈ ws, ' ' ∉ w) →
    ∀ (acc : List (List Char) × List Char),
      (((ws.foldl (wrapStep width maxWidth) acc).1.flatMap splitSp ++
          splitSp (ws.foldl (wrapStep width maxWidth) acc).2).filter
            (· ≠ [])) =
        ((acc.1.flatMap splitSp ++ splitSp acc.2).filter (· ≠ [])) ++
          (ws.filter (· ≠ [])) := by
  intro ws
  induction ws with
  | nil => intro _ acc; simp
  | cons w ws ih =>
    intro hsp acc
    have hw : ' ' ∉ w := hsp w (List.mem_cons_self w ws)
    have hsp' : ∀ x ∈ ws, ' ' ∉ x := fun x hx => hsp x (List.mem_cons_of_mem w hx)
    simp only [List.foldl_cons]
    rw [ih hsp' (wrapStep width maxWidth acc w)]
    have key : ((wrapStep width maxWidth acc w).1.flatMap splitSp ++
        splitSp (wrapStep width maxWidth acc w).2).filter (· ≠ []) =
        ((acc.1.flatMap splitSp ++ splitSp acc.2).filter (· ≠ [])) ++
          ([w].filter (· ≠ [])) := by
      rw [wrapStep_eq]
      by_cases hc : acc.2 = []
      · rw [if_pos hc, hc]
        rw [splitSp_of_not_space w hw]
        simp [splitSp, List.filter_append]
      · rw [if_neg hc]
        by_cases hw2 : maxWidth < width (acc.2 ++ ' ' :: w)
        · rw [if_pos hw2]
          dsimp only
          rw [List.flatMap_append]
          simp only [List.flatMap_cons, List.flatMap_nil, List.append_nil]
          rw [splitSp_of_not_space w hw]
          simp [List.filter_append, List.append_assoc]
        · rw [if_neg hw2]
          dsimp only
          rw [splitSp_append_space, splitSp_of_not_space w hw]
          simp [List.filter_append, List.append_assoc]
    rw [key, List.append_assoc]
    have : (w :: ws).filter (· ≠ []) = [w].filter (· ≠ []) ++ ws.filter (· ≠ []) := by
      rw [← List.filter_append]
      rfl
    rw [this]

theorem splitSp_joinSp (ls : List (List Char)) (h : ls ≠ []) :
    splitSp (joinSp ls) = ls.flatMap splitSp := by
  induction ls with
  | nil => exact absurd rfl h
  | cons l ls ih =>
    match ls with
    | [] => simp [joinSp]
    | l' :: ls' =>
      rw [show joinSp (l :: l' :: ls') = l ++ ' ' :: joinSp (l' :: ls') from rfl]
      rw [splitSp_append_space, ih (by simp)]
      simp

/-- C4: for every width metric, positive max width and input text, the
greedy wrapper returns only lines that fit within the max width except
lines that are a single (unsplit) input word, and joining the lines with
single spaces reconstructs the original words in order. -/
theorem wrapText_correct (width : List Char → ℚ) (maxWidth : ℚ)
    (text : List Char) (hpos : 0 < maxWidth) :
    (∀ l ∈ wrapText width maxWidth text,
        width l ≤ maxWidth ∨ l ∈ splitSp text) ∧
      ((splitSp (joinSp (wrapText width maxWidth text))).filter (· ≠ []) =
        (splitSp text).filter (· ≠ [])) := by
  constructor
  · intro l hl
    have h := wrapFold_good width maxWidth (· ∈ splitSp text) (splitSp text)
      (fun w hw => hw) ([], []) (by simp) (Or.inl rfl)
    unfold wrapText at hl
    dsimp only at hl
    split at hl
    · exact h.1 l hl
    · rcases List.mem_append.mp hl with h' | h'
      · exact h.1 l h'
      · rcases List.mem_singleton.mp h' with rfl
        rcases h.2 with h2 | h2
        · rename_i hne; exact absurd h2 hne
        · exact h2
  · have h := wrapFold_words width maxWidth (splitSp text)
      (not_space_mem_splitSp text) ([], [])
    have hinit : (([] : List (List Char)).flatMap splitSp ++
        splitSp ([] : List Char)).filter (· ≠ []) = [] := by
      simp [splitSp]
    rw [hinit, List.nil_append] at h
    unfold wrapText
    dsimp only
    split
    · rename_i hnil
      by_cases hres : ((splitSp text).foldl (wrapStep width maxWidth) ([], [])).1 = []
      · rw [hres]
        simp only [joinSp, splitSp]
        rw [hres, hnil] at h
        simp only [List.flatMap_nil, List.nil_append, splitSp] at h
        simp only [List.filter]
        rw [← h]
        simp [splitSp]
      · rw [splitSp_joinSp _ hres]
        rw [hnil] at h
        simp only [splitSp] at h
        rw [← h]
        simp [List.filter_append]
    · rename_i hnil
      have hne : ((splitSp text).foldl (wrapStep width maxWidth) ([], [])).1 ++
          [((splitSp text).foldl (wrapStep width maxWidth) ([], [])).2] ≠ [] := by
        simp
      rw [splitSp_joinSp _ hne]
      rw [← h]
      simp [List.filter_append]

/-- C4 witness: the wrap correctness applied at a concrete width metric
(character count), max width 5 and text `"ab cd ef"`. -/
theorem wrapText_correct_witness :
    (0 : ℚ) < 5 ∧
      ((∀ l ∈ wrapText (fun s => (s.length : ℚ)) 5 "ab cd ef".toList,
          (l.length : ℚ) ≤ 5 ∨ l ∈ splitSp "ab cd ef".toList) ∧
        ((splitSp (joinSp (wrapText (fun s => (s.length : ℚ)) 5
            "ab cd ef".toList))).filter (· ≠ []) =
          (splitSp "ab cd ef".toList).filter (· ≠ []))) :=
  ⟨by norm_num,
    wrapText_correct (fun s => (s.length : ℚ)) 5 "ab cd ef".toList
      (by norm_num)⟩

/-! ## Hex color parsing (`parseColor` in the PDF renderer) -/

/-- Value of one hex digit, case insensitive (the regex character class
`[a-f\d]` under the `i` flag). `none` for a non-hex character. -/
def hexVal : Char → Option Nat := fun c =>
  if '0' ≤ c ∧ c ≤ '9' then some (c.toNat - 48)
  else if 'a' ≤ c ∧ c ≤ 'f' then some (c.toNat - 87)
  else if 'A' ≤ c ∧ c ≤ 'F' then some (c.toNat - 55)
  else none

/-- `parseColor(hex)` from the PDF renderer: a JS-falsy input (`null`,
`undefined`, `''`) gives `null`; otherwise the string must match
`^#?([a-f\d]{2})([a-f\d]{2})([a-f\d]{2})$/i` and each channel is the
two-digit hex value divided by 255. -/
def parseColor (hex : Option (List Char)) : Option (ℚ × ℚ × ℚ) :=
  match hex with
  | none => none
  | some [] => none
  | some cs =>
    let body := match cs with
      | '#' :: rest => rest
      | _ => cs
    match body with
    | [a, b, c, d, e, f] =>
      match hexVal a, hexVal b, hexVal c, hexVal d, hexVal e, hexVal f with
      | some va, some vb, some vc, some vd, some ve, some vf =>
        some (((16 * va + vb : ℕ) : ℚ) / 255,
              ((16 * vc + vd : ℕ) : ℚ) / 255,
              ((16 * ve + vf : ℕ) : ℚ) / 255)
      | _, _, _, _, _, _ => none
    | _ => none

/-- The secondary brand color `BRAND.cyan` (`#00B8E6`). -/
def brandCyan : ℚ × ℚ × ℚ := ((0 : ℚ) / 255, (184 : ℚ) / 255, (230 : ℚ) / 255)

/-- Color used for the tier name text:
`parseColor(tier.color) || BRAND.cyan` in `generateCertificatePDF`. -/
def tierTextColor (color : Option (List Char)) : ℚ × ℚ × ℚ :=
  (parseColor color).getD brandCyan

/-- C7: the hex parser maps `#RRGGBB` (hex digits, case insensitive) to
the channel values divided by 255; `"#00B8E6"` parses to
`(0, 184/255, 230/255)`; empty, missing or malformed input parses to no
color, and the tier text then falls back to the brand cyan color. -/
theorem parseColor_correct
    (a b c d e f : Char) (va vb vc vd ve vf : ℕ)
    (ha : hexVal a = some va) (hb : hexVal b = some vb)
    (hc : hexVal c = some vc) (hd : hexVal d = some vd)
    (he : hexVal e = some ve) (hf : hexVal f = some vf) :
    parseColor (some ('#' :: [a, b, c, d, e, f])) =
      some (((16 * va + vb : ℕ) : ℚ) / 255,
            ((16 * vc + vd : ℕ) : ℚ) / 255,
            ((16 * ve + vf : ℕ) : ℚ) / 255) ∧
      parseColor (some "#00B8E6".toList) = some brandCyan ∧
      parseColor (some "".toList) = none ∧
      parseColor none = none ∧
      parseColor (some "blue".toList) = none ∧
      parseColor (some "#ZZZZZZ".toList) = none ∧
      tierTextColor (some "blue".toList) = brandCyan ∧
      tierTextColor (some "#ZZZZZZ".toList) = brandCyan ∧
      tierTextColor (some "".toList) = brandCyan ∧
      tierTextColor none = brandCyan := by
  refine ⟨?_, ?_, ?_, ?_, ?_, ?_, ?_, ?_, ?_, ?_⟩
  · simp [parseColor, ha, hb, hc, hd, he, hf]
  · have h0 : hexVal '0' = some 0 := by decide
    have hB : hexVal 'B' = some 11 := by decide
    have h8 : hexVal '8' = some 8 := by decide
    have hE : hexVal 'E' = some 14 := by decide
    have h6 : hexVal '6' = some 6 := by decide
    show parseColor (some ('#' :: ['0', '0', 'B', '8', 'E', '6'])) =
      some brandCyan
    norm_num [parseColor, h0, hB, h8, hE, h6, brandCyan]
  · rfl
  · rfl
  · rfl
  · rfl
  · rfl
  · rfl
  · rfl
  · rfl

/-- C7 witness: the general clause of `parseColor_correct` applied to the
digits of `#00B8E6`. -/
theorem parseColor_correct_witness :
    parseColor (some ('#' :: ['0', '0', 'B', '8', 'E', '6'])) =
      some (((16 * 0 + 0 : ℕ) : ℚ) / 255,
            ((16 * 11 + 8 : ℕ) : ℚ) / 255,
            ((16 * 14 + 6 : ℕ) : ℚ) / 255) :=
  (parseColor_correct '0' '0' 'B' '8' 'E' '6' 0 0 11 8 14 6
    (by decide) (by decide) (by decide) (by decide) (by decide)
    (by decide)).1

/-! ## Signature name and title resolution -/

/-- JS `a || b` on strings, where `null`/`undefined` are conflated with
the falsy empty string. -/
def jsOr (a b : List Char) : List Char := if a = [] then b else a

/-- The PDF renderer's footer signature name:
`signatureName || sender?.signature_name || sender?.name || ''`. -/
def pdfSignatureName (override senderSig senderName : List Char) : List Char :=
  jsOr override (jsOr senderSig senderName)

/-- The PDF renderer's footer signature title:
`signatureTitle || sender?.signature_title || ''`. -/
def pdfSignatureTitle (override senderTitle : List Char) : List Char :=
  jsOr override senderTitle

/-- The certificate route's `signatureName` argument:
`req.user.signature_name || settings['global_signature_name']`. -/
def routeSignatureName (senderSig globalSig : List Char) : List Char :=
  jsOr senderSig globalSig

/-- The certificate route's `signatureTitle` argument:
`req.user.signature_title || settings['global_signature_title']`. -/
def routeSignatureTitle (senderTitle globalTitle : List Char) : List Char :=
  jsOr senderTitle globalTitle

/-- Signature name on a certificate issued through the route: the route
computes the override passed to the renderer. -/
def issuedSignatureName (senderSig globalSig senderName : List Char) : List Char :=
  pdfSignatureName (routeSignatureName senderSig globalSig) senderSig senderName

/-- Signature title on a certificate issued through the route. -/
def issuedSignatureTitle (senderTitle globalTitle : List Char) : List Char :=
  pdfSignatureTitle (routeSignatureTitle senderTitle globalTitle) senderTitle

/-- C5 counterexample: with the explicit override, the sender's personal
signature and the global settings signature all unset, the rendered
signature name is the sender's display name, not blank — both through
the route and at the renderer itself. -/
theorem signatureName_not_blank :
    issuedSignatureName [] [] "Alice".toList = "Alice".toList ∧
      pdfSignatureName [] [] "Alice".toList = "Alice".toList ∧
      "Alice".toList ≠ ([] : List Char) := by
  decide

/-- C5 amended: the renderer resolves the signature name as
override → sender's personal signature → sender's display name → blank;
the route folds the personal and global signatures into the override it
passes, so an issued certificate resolves personal → global → display
name → blank.  The signature title resolves override → personal title →
blank at the renderer and personal → global → blank through the route,
independently of the name and with no display-name fallback. -/
theorem signature_resolution (ov sig glob nm tov tsig tglob : List Char) :
    (ov ≠ [] → pdfSignatureName ov sig nm = ov) ∧
      (ov = [] → sig ≠ [] → pdfSignatureName ov sig nm = sig) ∧
      (ov = [] → sig = [] → pdfSignatureName ov sig nm = nm) ∧
      (sig ≠ [] → issuedSignatureName sig glob nm = sig) ∧
      (sig = [] → glob ≠ [] → issuedSignatureName sig glob nm = glob) ∧
      (sig = [] → glob = [] → issuedSignatureName sig glob nm = nm) ∧
      (tov ≠ [] → pdfSignatureTitle tov tsig = tov) ∧
      (tov = [] → pdfSignatureTitle tov tsig = tsig) ∧
      (tsig ≠ [] → issuedSignatureTitle tsig tglob = tsig) ∧
      (tsig = [] → issuedSignatureTitle tsig tglob = tglob) := by
  refine ⟨?_, ?_, ?_, ?_, ?_, ?_, ?_, ?_, ?_, ?_⟩ <;>
    intros <;>
    simp_all [issuedSignatureName, issuedSignatureTitle, pdfSignatureName,
      pdfSignatureTitle, routeSignatureName, routeSignatureTitle, jsOr]

/-- C5 witness: the amended resolution applied at concrete strings —
global signature used when the personal one is unset, and the display
name used when both are unset. -/
theorem signature_resolution_witness :
    issuedSignatureName [] "Gloria".toList "Alice".toList = "Gloria".toList ∧
      issuedSignatureName [] [] "Alice".toList = "Alice".toList :=
  ⟨(signature_resolution [] [] "Gloria".toList "Alice".toList [] [] []).2.2.2.2.1
      rfl (by decide),
    (signature_resolution [] [] [] "Alice".toList [] [] []).2.2.2.2.2.1 rfl rfl⟩

/-! ## Placeholder substitution in the email dispatcher

`sendCertificateEmail` renders the subject/body templates by successive
`template.replace(new RegExp(escapedToken, 'g'), value)` passes, one per
entry of the replacements object, in insertion order.  The pattern is a
regex-escaped literal token, so matching is literal; the replacement
value, however, is interpreted by `String.prototype.replace` under the
dollar-escape rules of GetSubstitution.  `replaceAll` below models the
call faithfully, including those escapes; `replaceAllLit` is the
literal-insertion variant, which coincides with `replaceAll` whenever
the value contains no dollar character (`replaceAllLit_eq` bridges the
two) and serves as the proof normal form. -/

/-- Fuel-indexed worker for `replaceAllLit`; the fuel is an upper bound on
the remaining input length so the recursion is structural. -/
def replaceAllLitGo (t v : List Char) : Nat → List Char → List Char
  | _, [] => []
  | 0, s => s
  | fuel + 1, c :: cs =>
    if t.isPrefixOf (c :: cs) then
      v ++ replaceAllLitGo t v fuel ((c :: cs).drop t.length)
    else c :: replaceAllLitGo t v fuel cs

/-- Global replace of a non-empty literal pattern `t` with literal
insertion of the value `v` — the behaviour of the JS call when `v`
contains no dollar character. -/
def replaceAllLit (t v s : List Char) : List Char := replaceAllLitGo t v s.length s

theorem replaceAllLitGo_nil (t v : List Char) (fuel : Nat) :
    replaceAllLitGo t v fuel [] = [] := by
  cases fuel <;> rfl

theorem replaceAllLitGo_congr (t v : List Char) (ht : t ≠ []) :
    ∀ (fuel₁ : Nat) (fuel₂ : Nat) (s : List Char),
      s.length ≤ fuel₁ → s.length ≤ fuel₂ →
      replaceAllLitGo t v fuel₁ s = replaceAllLitGo t v fuel₂ s := by
  intro fuel₁
  induction fuel₁ with
  | zero =>
    intro fuel₂ s h1 _
    have : s = [] := List.length_eq_zero.mp (Nat.le_zero.mp h1)
    subst this
    rw [replaceAllLitGo_nil, replaceAllLitGo_nil]
  | succ f ih =>
    intro fuel₂ s h1 h2
    match s, fuel₂ with
    | [], g => rw [replaceAllLitGo_nil, replaceAllLitGo_nil]
    | c :: cs, 0 => simp at h2
    | c :: cs, g + 1 =>
      have ht1 : 1 ≤ t.length := by
        cases t with
        | nil => exact absurd rfl ht
        | cons a as => simp
      simp only [replaceAllLitGo]
      by_cases hp : t.isPrefixOf (c :: cs)
      · rw [if_pos hp, if_pos hp]
        have hd : ((c :: cs).drop t.length).length ≤ cs.length := by
          simp only [List.length_drop, List.length_cons]
          omega
        rw [ih g ((c :: cs).drop t.length)
          (le_trans hd (Nat.lt_succ_iff.mp (Nat.lt_of_lt_of_le (Nat.lt_succ_self _) h1)))
          (le_trans hd (Nat.lt_succ_iff.mp (Nat.lt_of_lt_of_le (Nat.lt_succ_self _) h2)))]
      · rw [if_neg hp, if_neg hp]
        rw [ih g cs (by simpa using Nat.lt_succ_iff.mp (Nat.lt_of_lt_of_le (Nat.lt_succ_self _) h1))
          (by simpa using Nat.lt_succ_iff.mp (Nat.lt_of_lt_of_le (Nat.lt_succ_self _) h2))]

theorem replaceAllLit_nil (t v : List Char) : replaceAllLit t v [] = [] := rfl

theorem replaceAllLit_cons (t v : List Char) (ht : t ≠ []) (c : Char)
    (cs : List Char) :
    replaceAllLit t v (c :: cs) =
      if t.isPrefixOf (c :: cs) then
        v ++ replaceAllLit t v ((c :: cs).drop t.length)
      else c :: replaceAllLit t v cs := by
  have ht1 : 1 ≤ t.length := by
    cases t with
    | nil => exact absurd rfl ht
    | cons a as => simp
  show replaceAllLitGo t v (cs.length + 1) (c :: cs) = _
  simp only [replaceAllLitGo]
  by_cases hp : t.isPrefixOf (c :: cs)
  · rw [if_pos hp, if_pos hp]
    rw [replaceAllLitGo_congr t v ht cs.length ((c :: cs).drop t.length).length
      ((c :: cs).drop t.length) (by simp; omega) le_rfl]
    rfl
  · rw [if_neg hp, if_neg hp]
    rfl

theorem replaceAllLit_pos (t v s : List Char) (ht : t ≠ []) (h : t <+: s) :
    replaceAllLit t v s = v ++ replaceAllLit t v (s.drop t.length) := by
  match s with
  | [] =>
    exact absurd (List.prefix_nil.mp h) ht
  | c :: cs =>
    rw [replaceAllLit_cons t v ht c cs,
      if_pos (List.isPrefixOf_iff_prefix.mpr h)]

theorem replaceAllLit_neg (t v : List Char) (c : Char) (cs : List Char)
    (h : ¬ t <+: (c :: cs)) :
    replaceAllLit t v (c :: cs) = c :: replaceAllLit t v cs := by
  have ht : t ≠ [] := by
    rintro rfl
    exact h List.nil_prefix
  rw [replaceAllLit_cons t v ht c cs,
    if_neg (fun hb => h (List.isPrefixOf_iff_prefix.mp hb))]

theorem drop_append_short {α : Type} (x y : List α) (n : Nat)
    (h : n ≤ x.length) : (x ++ y).drop n = x.drop n ++ y := by
  induction x generalizing n with
  | nil =>
    have : n = 0 := Nat.le_zero.mp h
    subst this
    rfl
  | cons c cs ih =>
    match n with
    | 0 => rfl
    | n + 1 =>
      simp only [List.cons_append, List.drop_succ_cons]
      exact ih n (by simpa using h)

/-- No occurrence of a pattern can start strictly inside `x`: then a
global replace on `x ++ y` leaves `x` untouched. -/
theorem replaceAllLit_append (t v x y : List Char) (ht : t ≠ [])
    (hx : ∀ n, n < x.length → ¬ t <+: (x ++ y).drop n) :
    replaceAllLit t v (x ++ y) = x ++ replaceAllLit t v y := by
  induction x with
  | nil => rfl
  | cons c cs ih =>
    have h0 : ¬ t <+: (c :: (cs ++ y)) := by
      have := hx 0 (by simp)
      simpa using this
    have hrec : replaceAllLit t v (cs ++ y) = cs ++ replaceAllLit t v y := by
      apply ih
      intro n hn
      have := hx (n + 1) (by simp; omega)
      simpa using this
    rw [List.cons_append, replaceAllLit_neg t v c (cs ++ y) h0, hrec,
      List.cons_append]

/-- GetSubstitution of `String.prototype.replace` for a string
replacement value, a literal pattern and no capture groups: `matched` is
the matched substring (the pattern itself), `before`/`after` the parts
of the subject preceding and following the match.  `$$` yields a dollar,
`$&` the match, a dollar followed by a backquote the preceding part, a
dollar followed by a quote the following part; every other sequence —
including `$1`..`$99` and `$<`, since the escaped-token pattern has no
(named) capture groups — is copied literally. -/
def expandRepl (matched before after : List Char) : List Char → List Char
  | [] => []
  | c :: rest =>
    if c = '$' then
      match rest with
      | [] => ['$']
      | d :: rest2 =>
        if d = '$' then '$' :: expandRepl matched before after rest2
        else if d = '&' then matched ++ expandRepl matched before after rest2
        else if d = Char.ofNat 96 then before ++ expandRepl matched before after rest2
        else if d = Char.ofNat 39 then after ++ expandRepl matched before after rest2
        else '$' :: d :: expandRepl matched before after rest2
    else c :: expandRepl matched before after rest

/-- Fuel-indexed worker for `replaceAll`: `orig` is the full subject of
this replace call and `pos` the index in it of the remaining suffix `s`
(the backquote and quote dollar escapes reference the parts of the
subject around each match). -/
def replaceAllGo (t v orig : List Char) : Nat → Nat → List Char → List Char
  | _, _, [] => []
  | 0, _, s => s
  | fuel + 1, pos, c :: cs =>
    if t.isPrefixOf (c :: cs) then
      expandRepl t (orig.take pos) (orig.drop (pos + t.length)) v ++
        replaceAllGo t v orig fuel (pos + t.length) ((c :: cs).drop t.length)
    else c :: replaceAllGo t v orig fuel (pos + 1) cs

/-- JS `s.replace(new RegExp(escape(t), 'g'), v)` for a non-empty
literal pattern `t`: left-to-right scan over non-overlapping occurrences
with dollar-escape interpretation of the replacement value; replacement
output is not rescanned within the same pass. -/
def replaceAll (t v s : List Char) : List Char :=
  replaceAllGo t v s s.length 0 s

theorem expandRepl_no_dollar (matched before after v : List Char)
    (hv : '$' ∉ v) : expandRepl matched before after v = v := by
  induction v with
  | nil => rfl
  | cons c rest ih =>
    have hc : ¬ c = '$' := fun h => hv (h ▸ List.mem_cons_self c rest)
    have hrest : '$' ∉ rest := fun h => hv (List.mem_cons_of_mem c h)
    rw [expandRepl.eq_def]
    simp only [if_neg hc]
    rw [ih hrest]

theorem replaceAllGo_eq_lit (t v : List Char) (hv : '$' ∉ v)
    (orig : List Char) :
    ∀ (fuel : Nat) (pos : Nat) (s : List Char),
      replaceAllGo t v orig fuel pos s = replaceAllLitGo t v fuel s := by
  intro fuel
  induction fuel with
  | zero => intro pos s; cases s <;> rfl
  | succ f ih =>
    intro pos s
    match s with
    | [] => rfl
    | c :: cs =>
      simp only [replaceAllGo, replaceAllLitGo]
      by_cases hp : t.isPrefixOf (c :: cs)
      · rw [if_pos hp, if_pos hp,
          expandRepl_no_dollar t (orig.take pos)
            (orig.drop (pos + t.length)) v hv, ih _ _]
      · rw [if_neg hp, if_neg hp, ih _ _]

/-- For a dollar-free replacement value the faithful replace and the
literal-insertion variant agree. -/
theorem replaceAllLit_eq (t v s : List Char) (hv : '$' ∉ v) :
    replaceAll t v s = replaceAllLit t v s :=
  replaceAllGo_eq_lit t v hv s s.length 0 s

/-- The shape of every placeholder token: an opening brace followed by a
brace-free body. -/
def tokenShape (t : List Char) : Prop :=
  ∃ tb, t = '{' :: tb ∧ '{' ∉ tb

theorem tokenShape_ne_nil {t : List Char} (h : tokenShape t) : t ≠ [] := by
  obtain ⟨tb, rfl, -⟩ := h
  simp

theorem not_prefix_of_head_ne {tb rest : List Char} {c : Char}
    (hc : c ≠ '{') : ¬ ('{' :: tb) <+: (c :: rest) := by
  intro h
  obtain ⟨u, hu⟩ := h
  simp only [List.cons_append] at hu
  exact hc (List.head_eq_of_cons_eq hu).symm

theorem not_prefix_append_left {t t' : List Char} (A : List Char)
    (h1 : ¬ t <+: t') (h2 : ¬ t' <+: t) : ¬ t <+: (t' ++ A) := by
  intro h
  rcases le_or_lt t.length t'.length with hl | hl
  · exact h1 (List.prefix_of_prefix_length_le h (List.prefix_append t' A) hl)
  · exact h2 (List.prefix_of_prefix_length_le (List.prefix_append t' A) h
      (le_of_lt hl))

/-- A template decomposed into brace-free literal segments and whole
token occurrences (each paired with its replacement value). -/
inductive Piece where
  | lit : List Char → Piece
  | tok : List Char × List Char → Piece

/-- The template string a piece decomposition denotes. -/
def assemble : List Piece → List Char
  | [] => []
  | Piece.lit s :: ps => s ++ assemble ps
  | Piece.tok p :: ps => p.1 ++ assemble ps

/-- Simultaneous literal substitution on a decomposed template: every
token occurrence is replaced by its value, values are not re-scanned.
This is the specification-side meaning of "replaces every occurrence of
each token by literal string replacement". -/
def renderPieces : List Piece → List Char
  | [] => []
  | Piece.lit s :: ps => s ++ renderPieces ps
  | Piece.tok p :: ps => p.2 ++ renderPieces ps

/-- Effect of one global replace pass on a decomposition: occurrences of
`t` become literal text `v`. -/
def replaceTok (t v : List Char) : Piece → Piece
  | Piece.lit s => Piece.lit s
  | Piece.tok p => if p.1 = t then Piece.lit v else Piece.tok p

theorem replaceAllLit_assemble (t v : List Char) (htS : tokenShape t)
    (hv : '{' ∉ v) (ps : List Piece)
    (hlit : ∀ s, Piece.lit s ∈ ps → '{' ∉ s)
    (htok : ∀ p, Piece.tok p ∈ ps →
      tokenShape p.1 ∧ (p.1 = t ∨ (¬ t <+: p.1 ∧ ¬ p.1 <+: t))) :
    replaceAllLit t v (assemble ps) = assemble (ps.map (replaceTok t v)) := by
  obtain ⟨tb, ht_eq, htb⟩ := htS
  have ht : t ≠ [] := by rw [ht_eq]; simp
  induction ps with
  | nil => rfl
  | cons piece ps ih =>
    have ih' := ih (fun s hs => hlit s (List.mem_cons_of_mem piece hs))
      (fun p hp => htok p (List.mem_cons_of_mem piece hp))
    cases piece with
    | lit s =>
      have hs : '{' ∉ s := hlit s (List.mem_cons_self _ _)
      have happ : replaceAllLit t v (s ++ assemble ps) =
          s ++ replaceAllLit t v (assemble ps) := by
        apply replaceAllLit_append t v s (assemble ps) ht
        intro n hn
        rw [drop_append_short s (assemble ps) n (le_of_lt hn),
          List.drop_eq_getElem_cons hn, ht_eq]
        exact not_prefix_of_head_ne
          (fun hgc => hs (hgc ▸ List.getElem_mem hn))
      rw [show assemble (Piece.lit s :: ps) = s ++ assemble ps from rfl,
        happ, ih']
      rfl
    | tok p =>
      rcases htok p (List.mem_cons_self _ _) with ⟨⟨tb', hp_eq, htb'⟩, hrel⟩
      rcases hrel with heq | ⟨h1, h2⟩
      · rw [show assemble (Piece.tok p :: ps) = p.1 ++ assemble ps from rfl,
          heq, replaceAllLit_pos t v (t ++ assemble ps) ht (List.prefix_append t _),
          List.drop_left, ih']
        simp only [List.map_cons]
        rw [show replaceTok t v (Piece.tok p) = Piece.lit v by
          simp [replaceTok, heq]]
        rfl
      · have happ : replaceAllLit t v (p.1 ++ assemble ps) =
            p.1 ++ replaceAllLit t v (assemble ps) := by
          apply replaceAllLit_append t v p.1 (assemble ps) ht
          intro n hn
          match n with
          | 0 =>
            simpa using not_prefix_append_left (assemble ps) h1 h2
          | n + 1 =>
            rw [drop_append_short p.1 (assemble ps) (n + 1) (le_of_lt hn),
              List.drop_eq_getElem_cons hn, ht_eq]
            apply not_prefix_of_head_ne
            intro hgc
            apply htb'
            have hmem : p.1[n + 1] ∈ tb' := by
              have hlen : n < tb'.length := by
                have := hn
                rw [hp_eq] at this
                simpa using this
              have : p.1[n + 1] = tb'[n] := by
                simp [hp_eq]
              rw [this]
              exact List.getElem_mem hlen
            exact hgc ▸ hmem
        rw [show assemble (Piece.tok p :: ps) = p.1 ++ assemble ps from rfl,
          happ, ih']
        simp only [List.map_cons]
        have hne : p.1 ≠ t := by
          intro hc
          apply h1
          rw [hc]
        rw [show replaceTok t v (Piece.tok p) = Piece.tok p by
          simp [replaceTok, hne]]
        rfl

/-- The literal-insertion variant of the successive replace passes: the
proof normal form, agreeing with `substPairs` for dollar-free values. -/
def substPairsLit (pairs : List (List Char × List Char)) (s : List Char) :
    List Char :=
  pairs.foldl (fun acc p => replaceAllLit p.1 p.2 acc) s

/-- The successive replace passes of `sendCertificateEmail`: one global
replace per (token, value) entry of the replacements object, in list
order, with the dollar-escape semantics of `String.prototype.replace`. -/
def substPairs (pairs : List (List Char × List Char)) (s : List Char) :
    List Char :=
  pairs.foldl (fun acc p => replaceAll p.1 p.2 acc) s

theorem substPairs_eq_lit (pairs : List (List Char × List Char))
    (hv : ∀ p ∈ pairs, '$' ∉ p.2) :
    ∀ s, substPairs pairs s = substPairsLit pairs s := by
  induction pairs with
  | nil => intro s; rfl
  | cons p rest ih =>
    intro s
    show List.foldl _ (replaceAll p.1 p.2 s) rest =
      List.foldl _ (replaceAllLit p.1 p.2 s) rest
    rw [replaceAllLit_eq p.1 p.2 s (hv p (List.mem_cons_self p rest))]
    exact ih (fun q hq => hv q (List.mem_cons_of_mem p hq)) _

theorem assemble_eq_render_of_no_tok (ps : List Piece)
    (h : ∀ p, Piece.tok p ∉ ps) : assemble ps = renderPieces ps := by
  induction ps with
  | nil => rfl
  | cons piece ps ih =>
    cases piece with
    | lit s =>
      rw [show assemble (Piece.lit s :: ps) = s ++ assemble ps from rfl,
        show renderPieces (Piece.lit s :: ps) = s ++ renderPieces ps from rfl,
        ih (fun p hp => h p (List.mem_cons_of_mem _ hp))]
    | tok p => exact absurd (List.mem_cons_self _ _) (h p)

theorem renderPieces_map_replaceTok (t v : List Char) (ps : List Piece)
    (h : ∀ p, Piece.tok p ∈ ps → p.1 = t → p.2 = v) :
    renderPieces (ps.map (replaceTok t v)) = renderPieces ps := by
  induction ps with
  | nil => rfl
  | cons piece ps ih =>
    have ih' := ih (fun p hp => h p (List.mem_cons_of_mem _ hp))
    cases piece with
    | lit s =>
      simp only [List.map_cons]
      rw [show replaceTok t v (Piece.lit s) = Piece.lit s from rfl]
      show s ++ renderPieces (ps.map (replaceTok t v)) = s ++ renderPieces ps
      rw [ih']
    | tok p =>
      simp only [List.map_cons]
      by_cases hp : p.1 = t
      · rw [show replaceTok t v (Piece.tok p) = Piece.lit v by
          simp [replaceTok, hp]]
        show v ++ renderPieces (ps.map (replaceTok t v)) = p.2 ++ renderPieces ps
        rw [ih', h p (List.mem_cons_self _ _) hp]
      · rw [show replaceTok t v (Piece.tok p) = Piece.tok p by
          simp [replaceTok, hp]]
        show p.2 ++ renderPieces (ps.map (replaceTok t v)) =
          p.2 ++ renderPieces ps
        rw [ih']

/-- Sequential global replaces compute the simultaneous literal
substitution on any decomposition into brace-free literal segments and
whole tokens, provided all token values are brace-free, tokens are
mutually non-prefix, and no token is listed twice. -/
theorem substPairsLit_renders (pairs : List (List Char × List Char))
    (hshape : ∀ p ∈ pairs, tokenShape p.1 ∧ '{' ∉ p.2)
    (hcmp : ∀ p ∈ pairs, ∀ q ∈ pairs, p.1 ≠ q.1 →
      ¬ p.1 <+: q.1 ∧ ¬ q.1 <+: p.1)
    (hnodup : (pairs.map Prod.fst).Nodup)
    (ps : List Piece)
    (hlit : ∀ s, Piece.lit s ∈ ps → '{' ∉ s)
    (htok : ∀ p, Piece.tok p ∈ ps → p ∈ pairs) :
    substPairsLit pairs (assemble ps) = renderPieces ps := by
  induction pairs generalizing ps with
  | nil =>
    show assemble ps = renderPieces ps
    exact assemble_eq_render_of_no_tok ps
      (fun p hp => List.not_mem_nil p (htok p hp))
  | cons pr rest ih =>
    have hshape_pr := hshape pr (List.mem_cons_self _ _)
    have hpass : replaceAllLit pr.1 pr.2 (assemble ps) =
        assemble (ps.map (replaceTok pr.1 pr.2)) := by
      apply replaceAllLit_assemble pr.1 pr.2 hshape_pr.1 hshape_pr.2 ps hlit
      intro p hp
      have hpmem := htok p hp
      refine ⟨(hshape p hpmem).1, ?_⟩
      by_cases he : p.1 = pr.1
      · exact Or.inl he
      · exact Or.inr
          ((hcmp pr (List.mem_cons_self _ _) p hpmem (fun h => he h.symm)))
    show substPairsLit rest (replaceAllLit pr.1 pr.2 (assemble ps)) = renderPieces ps
    rw [hpass]
    rw [ih (fun p hp => hshape p (List.mem_cons_of_mem _ hp))
      (fun p hp q hq => hcmp p (List.mem_cons_of_mem _ hp) q
        (List.mem_cons_of_mem _ hq))
      (List.Nodup.of_cons hnodup)
      (ps.map (replaceTok pr.1 pr.2))
      ?_ ?_]
    · apply renderPieces_map_replaceTok
      intro p hp hp1
      have hpmem := htok p hp
      rcases List.mem_cons.mp hpmem with rfl | hpm
      · rfl
      · exfalso
        have : pr.1 ∈ rest.map Prod.fst := by
          rw [← hp1]
          exact List.mem_map_of_mem Prod.fst hpm
        exact (List.nodup_cons.mp hnodup).1 this
    · intro s hs
      rcases List.mem_map.mp hs with ⟨piece, hpiece, hrep⟩
      cases piece with
      | lit s' =>
        have : s = s' := by
          have : Piece.lit s' = Piece.lit s := hrep
          cases this; rfl
        exact this ▸ hlit s' hpiece
      | tok p =>
        by_cases hp : p.1 = pr.1
        · have : Piece.lit pr.2 = Piece.lit s := by
            rw [← hrep]; simp [replaceTok, hp]
          cases this
          exact hshape_pr.2
        · exfalso
          have : Piece.tok p = Piece.lit s := by
            rw [← hrep]; simp [replaceTok, hp]
          cases this
    · intro p hp
      rcases List.mem_map.mp hp with ⟨piece, hpiece, hrep⟩
      cases piece with
      | lit s' => exact absurd hrep (by simp [replaceTok])
      | tok q =>
        by_cases hq : q.1 = pr.1
        · exact absurd hrep (by simp [replaceTok, hq])
        · have : Piece.tok q = Piece.tok p := by
            rw [← hrep]; simp [replaceTok, hq]
          cases this
          have hpmem := htok p hpiece
          rcases List.mem_cons.mp hpmem with rfl | hpm
          · exact absurd rfl hq
          · exact hpm

/-- The replacements object of `sendCertificateEmail`, in insertion
order; an absent custom message contributes the empty string
(`customMessage || ''`). -/
def certPairs (tierName empName customMsgV senderName companyName :
    List Char) : List (List Char × List Char) :=
  [("\x7btier\x7d".toList, tierName),
   ("\x7bemployee_name\x7d".toList, empName),
   ("\x7bcustom_message\x7d".toList, customMsgV),
   ("\x7bsender_name\x7d".toList, senderName),
   ("\x7bcompany_name\x7d".toList, companyName)]

/-- Placeholder rendering of a subject/body template in
`sendCertificateEmail`: the successive global replace passes over the
replacements object. -/
def renderTemplate (tpl : List Char) (tierName empName : List Char)
    (customMsg : Option (List Char)) (senderName companyName : List Char) :
    List Char :=
  substPairs (certPairs tierName empName (customMsg.getD []) senderName
    companyName) tpl

/-- Fuel-indexed worker for `substSim`. -/
def substSimGo (pairs : List (List Char × List Char)) :
    Nat → List Char → List Char
  | _, [] => []
  | 0, s => s
  | fuel + 1, c :: cs =>
    match pairs.find? (fun p => p.1.isPrefixOf (c :: cs)) with
    | some p => p.2 ++ substSimGo pairs fuel ((c :: cs).drop p.1.length)
    | none => c :: substSimGo pairs fuel cs

/-- Simultaneous literal substitution as the claim states it, directly
on strings: one left-to-right scan over the template, replacing each
token occurrence by its value and never re-scanning substituted values.
Modelled from the spec's words, for comparison with the sequential
implementation. -/
def substSim (pairs : List (List Char × List Char)) (s : List Char) :
    List Char :=
  substSimGo pairs s.length s

/-- C6 counterexample, two failure modes of "literal string replacement
of every occurrence of each token".  First, the passes are sequential:
for the template `"{sender{custom_message}_name}"` with an absent custom
message, the third pass creates a new `{sender_name}` occurrence which
the fourth pass then substitutes — the dispatcher yields the sender's
name, whereas literal replacement of every token occurrence of the
original template yields the text `"{sender_name}"`.  Second, the
replacement value is interpreted: an employee name containing `$&`
re-inserts the matched token instead of being inserted literally. -/
theorem renderTemplate_not_literal :
    renderTemplate "\x7bsender\x7bcustom_message\x7d_name\x7d".toList
        "Gold".toList "Jane Doe".toList none "Bob".toList "Acme".toList =
      "Bob".toList ∧
      substSim (certPairs "Gold".toList "Jane Doe".toList [] "Bob".toList
          "Acme".toList)
        "\x7bsender\x7bcustom_message\x7d_name\x7d".toList =
        "\x7bsender_name\x7d".toList ∧
      "Bob".toList ≠ "\x7bsender_name\x7d".toList ∧
      renderTemplate "\x7bemployee_name\x7d".toList
        "Gold".toList "J$&D".toList none "Bob".toList "Acme".toList =
        "J\x7bemployee_name\x7dD".toList ∧
      substSim (certPairs "Gold".toList "J$&D".toList [] "Bob".toList
          "Acme".toList) "\x7bemployee_name\x7d".toList = "J$&D".toList ∧
      "J\x7bemployee_name\x7dD".toList ≠ "J$&D".toList := by
  refine ⟨by decide, by decide, by decide, by decide, by decide, by decide⟩

/-- The five placeholder tokens, in the order of the replacements
object. -/
def certTokens : List (List Char) :=
  ["\x7btier\x7d".toList, "\x7bemployee_name\x7d".toList,
   "\x7bcustom_message\x7d".toList, "\x7bsender_name\x7d".toList,
   "\x7bcompany_name\x7d".toList]

theorem certTokens_shape : ∀ t ∈ certTokens, tokenShape t := by
  intro t ht
  simp only [certTokens, List.mem_cons, List.not_mem_nil, or_false] at ht
  rcases ht with rfl | rfl | rfl | rfl | rfl
  · exact ⟨"tier\x7d".toList, by decide, by decide⟩
  · exact ⟨"employee_name\x7d".toList, by decide, by decide⟩
  · exact ⟨"custom_message\x7d".toList, by decide, by decide⟩
  · exact ⟨"sender_name\x7d".toList, by decide, by decide⟩
  · exact ⟨"company_name\x7d".toList, by decide, by decide⟩

theorem certTokens_cmp : ∀ t1 ∈ certTokens, ∀ t2 ∈ certTokens,
    t1 ≠ t2 → ¬ t1 <+: t2 ∧ ¬ t2 <+: t1 := by decide

theorem certPairs_map_fst (tierName empName customMsgV senderName
    companyName : List Char) :
    (certPairs tierName empName customMsgV senderName
      companyName).map Prod.fst = certTokens := rfl

theorem certPairs_shape (tierName empName customMsgV senderName
    companyName : List Char)
    (h1 : '{' ∉ tierName) (h2 : '{' ∉ empName) (h3 : '{' ∉ customMsgV)
    (h4 : '{' ∉ senderName) (h5 : '{' ∉ companyName) :
    ∀ p ∈ certPairs tierName empName customMsgV senderName companyName,
      tokenShape p.1 ∧ '{' ∉ p.2 := by
  intro p hp
  have hfst : p.1 ∈ certTokens :=
    certPairs_map_fst tierName empName customMsgV senderName companyName ▸
      List.mem_map_of_mem Prod.fst hp
  refine ⟨certTokens_shape p.1 hfst, ?_⟩
  simp only [certPairs, List.mem_cons, List.not_mem_nil, or_false] at hp
  rcases hp with rfl | rfl | rfl | rfl | rfl
  · exact h1
  · exact h2
  · exact h3
  · exact h4
  · exact h5

theorem certPairs_cmp (tierName empName customMsgV senderName
    companyName : List Char) :
    ∀ p ∈ certPairs tierName empName customMsgV senderName companyName,
      ∀ q ∈ certPairs tierName empName customMsgV senderName companyName,
      p.1 ≠ q.1 → ¬ p.1 <+: q.1 ∧ ¬ q.1 <+: p.1 := by
  intro p hp q hq hne
  have hp1 : p.1 ∈ certTokens :=
    certPairs_map_fst tierName empName customMsgV senderName companyName ▸
      List.mem_map_of_mem Prod.fst hp
  have hq1 : q.1 ∈ certTokens :=
    certPairs_map_fst tierName empName customMsgV senderName companyName ▸
      List.mem_map_of_mem Prod.fst hq
  exact certTokens_cmp p.1 hp1 q.1 hq1 hne

theorem certPairs_nodup (tierName empName customMsgV senderName
    companyName : List Char) :
    ((certPairs tierName empName customMsgV senderName
      companyName).map Prod.fst).Nodup := by
  rw [certPairs_map_fst]
  decide

theorem certPairs_no_dollar (tierName empName customMsgV senderName
    companyName : List Char)
    (hd1 : '$' ∉ tierName) (hd2 : '$' ∉ empName) (hd3 : '$' ∉ customMsgV)
    (hd4 : '$' ∉ senderName) (hd5 : '$' ∉ companyName) :
    ∀ p ∈ certPairs tierName empName customMsgV senderName companyName,
      '$' ∉ p.2 := by
  intro p hp
  simp only [certPairs, List.mem_cons, List.not_mem_nil, or_false] at hp
  rcases hp with rfl | rfl | rfl | rfl | rfl
  · exact hd1
  · exact hd2
  · exact hd3
  · exact hd4
  · exact hd5

/-- C6 amended: the dispatcher substitutes by five successive global
replace passes (with the dollar-escape semantics of JS String.replace in
the replacement value) in the order tier, employee name, custom message
(empty when absent), sender name, company name; on any template that
alternates brace-free literal text with whole token occurrences, and for
values that are brace-free and dollar-free, this equals the simultaneous
literal replacement of every token occurrence — and the spec's concrete
subject renders exactly.  (On templates where one pass's output forms a
new token, later passes substitute it too, and a value containing a
dollar escape is not inserted literally — the two failure modes the
counterexample exhibits.) -/
theorem renderTemplate_literal (tierName empName customMsgV senderName
    companyName : List Char)
    (h1 : '{' ∉ tierName) (h2 : '{' ∉ empName) (h3 : '{' ∉ customMsgV)
    (h4 : '{' ∉ senderName) (h5 : '{' ∉ companyName)
    (hd1 : '$' ∉ tierName) (hd2 : '$' ∉ empName) (hd3 : '$' ∉ customMsgV)
    (hd4 : '$' ∉ senderName) (hd5 : '$' ∉ companyName)
    (ps : List Piece)
    (hlit : ∀ s, Piece.lit s ∈ ps → '{' ∉ s)
    (htok : ∀ p, Piece.tok p ∈ ps →
      p ∈ certPairs tierName empName customMsgV senderName companyName) :
    substPairs (certPairs tierName empName customMsgV senderName
        companyName) (assemble ps) = renderPieces ps ∧
      renderTemplate
        "Congrats \x7bemployee_name\x7d, you earned \x7btier\x7d!".toList
        "Top Performer".toList "Jane Doe".toList none "Sam".toList
        "Acme".toList =
        "Congrats Jane Doe, you earned Top Performer!".toList := by
  constructor
  · rw [substPairs_eq_lit _
      (certPairs_no_dollar _ _ _ _ _ hd1 hd2 hd3 hd4 hd5) (assemble ps)]
    exact substPairsLit_renders _
      (certPairs_shape _ _ _ _ _ h1 h2 h3 h4 h5)
      (certPairs_cmp _ _ _ _ _)
      (certPairs_nodup _ _ _ _ _)
      ps hlit htok
  · decide

/-- C6 witness: the amended equivalence applied at a concrete
decomposition — the subject template of the spec's example — and
concrete values. -/
theorem renderTemplate_literal_witness :
    substPairs (certPairs "Top Performer".toList "Jane Doe".toList []
        "Sam".toList "Acme".toList)
      (assemble [Piece.lit "Congrats ".toList,
        Piece.tok ("\x7bemployee_name\x7d".toList, "Jane Doe".toList),
        Piece.lit ", you earned ".toList,
        Piece.tok ("\x7btier\x7d".toList, "Top Performer".toList),
        Piece.lit "!".toList]) =
      renderPieces [Piece.lit "Congrats ".toList,
        Piece.tok ("\x7bemployee_name\x7d".toList, "Jane Doe".toList),
        Piece.lit ", you earned ".toList,
        Piece.tok ("\x7btier\x7d".toList, "Top Performer".toList),
        Piece.lit "!".toList] :=
  (renderTemplate_literal "Top Performer".toList "Jane Doe".toList []
    "Sam".toList "Acme".toList
    (by decide) (by decide) (by decide) (by decide) (by decide)
    (by decide) (by decide) (by decide) (by decide) (by decide)
    _
    (by
      intro s hs
      simp only [List.mem_cons, List.not_mem_nil, or_false] at hs
      rcases hs with hs | hs | hs | hs | hs <;> first
        | (cases hs; decide)
        | exact absurd hs (by decide)
        | cases hs)
    (by
      intro p hp
      simp only [List.mem_cons, List.not_mem_nil, or_false] at hp
      rcases hp with hp | hp | hp | hp | hp <;> first
        | (cases hp; decide)
        | cases hp)).1

/-! ## The certificate orchestrator

Shallow embedding of the certificate route handlers.  The database is a
record of row lists; the PDF renderer and the email dispatcher are
oracle functions returning `Except`, standing for the awaited promises;
`uuidv4()` and `CURRENT_TIMESTAMP` are explicit parameters.  A trace of
renderer/dispatcher invocations is returned so "no side effect" claims
are expressible. -/

structure Employee where
  id : Nat
  name : String
  email : String
  deriving Repr, DecidableEq

structure Tier where
  id : Nat
  name : String
  color : Option String
  deriving Repr, DecidableEq

structure Template where
  id : Nat
  name : String
  description : Option String
  design_config : String
  is_default : Bool
  thumbnail_path : Option String
  deriving Repr, DecidableEq

structure User where
  id : Nat
  name : String
  role : String
  signature_name : Option String
  signature_title : Option String
  deriving Repr, DecidableEq

/-- One row of the `certificates` table.  `rowId` is the numeric primary
key (`lastInsertRowid`), `certificate_id` the UUID. -/
structure CertRow where
  rowId : Nat
  certificate_id : String
  employee_id : Nat
  tier_id : Nat
  template_id : Nat
  sent_by : Nat
  custom_message : Option String
  achievement_description : Option String
  period : Option String
  pdf_path : String
  email_sent : Bool
  sent_at : Option Nat
  deriving Repr, DecidableEq

structure Db where
  employees : List Employee
  tiers : List Tier
  templates : List Template
  certificates : List CertRow
  settings : List (String × String)
  nextRowId : Nat
  deriving Repr, DecidableEq

def findEmployee (db : Db) (i : Nat) : Option Employee :=
  db.employees.find? (fun e => e.id == i)

def findTier (db : Db) (i : Nat) : Option Tier :=
  db.tiers.find? (fun t => t.id == i)

def findTemplate (db : Db) (i : Nat) : Option Template :=
  db.templates.find? (fun t => t.id == i)

def getSetting (db : Db) (k : String) : Option String :=
  (db.settings.find? (fun p => p.1 == k)).map Prod.snd

/-- JS `a || b` on nullable string fields (empty string is falsy). -/
def jsOrOpt (a b : Option String) : Option String :=
  if a.getD "" = "" then b else a

/-- JS `a || null` (empty string is stored as SQL NULL). -/
def orNull (a : Option String) : Option String :=
  if a.getD "" = "" then none else a

/-- The options bundle passed to `generateCertificatePDF`. -/
structure RenderArgs where
  certificateId : String
  employee : Employee
  tier : Tier
  template : Template
  sender : User
  customMessage : Option String
  achievementDescription : Option String
  period : Option String
  companyLogoPath : Option String
  signatureName : Option String
  signatureTitle : Option String

/-- The options bundle passed to `sendCertificateEmail` (only the fields
the dispatcher reads). -/
structure EmailArgs where
  employeeName : String
  employeeEmail : String
  tierName : String
  sender : User
  customMessage : Option String
  pdfPath : String

inductive Effect where
  | renderCalled : RenderArgs → Effect
  | emailCalled : EmailArgs → Effect

structure CreateReq where
  employee_id : Nat
  tier_id : Nat
  template_id : Nat
  custom_message : Option String
  achievement_description : Option String
  period : Option String
  send_email : Bool

inductive CreateResp where
  | badRef : String → CreateResp
  | serverError : String → CreateResp
  | created : CertRow → CreateResp

def insertCert (db : Db) (row : CertRow) : Db :=
  { db with
      certificates := db.certificates ++ [row],
      nextRowId := db.nextRowId + 1 }

/-- `UPDATE certificates SET email_sent = 1, sent_at = CURRENT_TIMESTAMP
WHERE id = rid`. -/
def setEmailSent (db : Db) (rid : Nat) (now : Nat) : Db :=
  { db with certificates := db.certificates.map (fun r =>
      if r.rowId == rid then { r with email_sent := true, sent_at := some now }
      else r) }

/-- `POST /api/certificates` after express-validator: validate the three
references, render, insert, optionally dispatch email (failures
swallowed), return the re-selected row.  The re-select after a
successful email update is modelled by returning the updated row
directly. -/
def createCertificate (db : Db) (user : User)
    (render : RenderArgs → Except String String)
    (email : EmailArgs → Except String Unit)
    (uuid : String) (now : Nat) (req : CreateReq) :
    Db × CreateResp × List Effect :=
  match findEmployee db req.employee_id with
  | none => (db, CreateResp.badRef "Employee not found", [])
  | some employee =>
  match findTier db req.tier_id with
  | none => (db, CreateResp.badRef "Tier not found", [])
  | some tier =>
  match findTemplate db req.template_id with
  | none => (db, CreateResp.badRef "Template not found", [])
  | some template =>
  let args : RenderArgs :=
    { certificateId := uuid, employee := employee, tier := tier,
      template := template, sender := user,
      customMessage := req.custom_message,
      achievementDescription := req.achievement_description,
      period := req.period,
      companyLogoPath := getSetting db "company_logo",
      signatureName := jsOrOpt user.signature_name
        (getSetting db "global_signature_name"),
      signatureTitle := jsOrOpt user.signature_title
        (getSetting db "global_signature_title") }
  match render args with
  | Except.error _ =>
    (db, CreateResp.serverError "Failed to create certificate",
      [Effect.renderCalled args])
  | Except.ok pdfPath =>
  let row : CertRow :=
    { rowId := db.nextRowId, certificate_id := uuid,
      employee_id := req.employee_id, tier_id := req.tier_id,
      template_id := req.template_id, sent_by := user.id,
      custom_message := orNull req.custom_message,
      achievement_description := orNull req.achievement_description,
      period := orNull req.period, pdf_path := pdfPath,
      email_sent := false, sent_at := none }
  let db1 := insertCert db row
  if req.send_email then
    let eargs : EmailArgs :=
      { employeeName := employee.name, employeeEmail := employee.email,
        tierName := tier.name, sender := user,
        customMessage := req.custom_message, pdfPath := pdfPath }
    match email eargs with
    | Except.ok _ =>
      (setEmailSent db1 row.rowId now,
        CreateResp.created { row with email_sent := true, sent_at := some now },
        [Effect.renderCalled args, Effect.emailCalled eargs])
    | Except.error _ =>
      (db1, CreateResp.created row,
        [Effect.renderCalled args, Effect.emailCalled eargs])
  else
    (db1, CreateResp.created row, [Effect.renderCalled args])

structure BulkSpec where
  employee_id : Nat
  tier_id : Nat
  template_id : Nat
  custom_message : Option String
  achievement_description : Option String
  period : Option String
  deriving Repr, DecidableEq

structure BulkItemError where
  cert : BulkSpec
  error : String
  deriving Repr, DecidableEq

structure BulkResults where
  success : Nat
  failed : Nat
  errors : List BulkItemError
  certificates : List (Nat × String)
  deriving Repr, DecidableEq

inductive BulkResp where
  | badRequest : String → BulkResp
  | done : BulkResults → BulkResp
  deriving Repr, DecidableEq

/-- One iteration of the `for (const cert of certData)` loop of
`POST /api/certificates/bulk`, with its per-item try/catch: a missing
reference or a renderer rejection is recorded in the per-item error list
and processing continues. -/
def processBulkItem (user : User)
    (render : RenderArgs → Except String String)
    (email : EmailArgs → Except String Unit)
    (sendEmail : Bool)
    (logoPath sigName sigTitle : Option String)
    (uuidGen : Nat → String) (now : Nat)
    (st : Db × BulkResults × List Effect) (spec : BulkSpec) :
    Db × BulkResults × List Effect :=
  let db := st.1
  let results := st.2.1
  let trace := st.2.2
  match findEmployee db spec.employee_id, findTier db spec.tier_id,
      findTemplate db spec.template_id with
  | some employee, some tier, some template =>
    let args : RenderArgs :=
      { certificateId := uuidGen (results.success + results.failed),
        employee := employee, tier := tier, template := template,
        sender := user, customMessage := spec.custom_message,
        achievementDescription := spec.achievement_description,
        period := spec.period, companyLogoPath := logoPath,
        signatureName := sigName, signatureTitle := sigTitle }
    match render args with
    | Except.error e =>
      (db,
        { results with
            failed := results.failed + 1,
            errors := results.errors ++ [⟨spec, e⟩] },
        trace ++ [Effect.renderCalled args])
    | Except.ok pdfPath =>
      let row : CertRow :=
        { rowId := db.nextRowId, certificate_id := args.certificateId,
          employee_id := spec.employee_id, tier_id := spec.tier_id,
          template_id := spec.template_id, sent_by := user.id,
          custom_message := orNull spec.custom_message,
          achievement_description := orNull spec.achievement_description,
          period := orNull spec.period, pdf_path := pdfPath,
          email_sent := false, sent_at := none }
      let db1 := insertCert db row
      let results1 :=
        { results with
            success := results.success + 1,
            certificates :=
              results.certificates ++ [(row.rowId, employee.name)] }
      if sendEmail then
        let eargs : EmailArgs :=
          { employeeName := employee.name, employeeEmail := employee.email,
            tierName := tier.name, sender := user,
            customMessage := spec.custom_message, pdfPath := pdfPath }
        match email eargs with
        | Except.ok _ =>
          (setEmailSent db1 row.rowId now, results1,
            trace ++ [Effect.renderCalled args, Effect.emailCalled eargs])
        | Except.error _ =>
          (db1, results1,
            trace ++ [Effect.renderCalled args, Effect.emailCalled eargs])
      else
        (db1, results1, trace ++ [Effect.renderCalled args])
  | _, _, _ =>
    (db,
      { results with
          failed := results.failed + 1,
          errors := results.errors ++
            [⟨spec, "Invalid employee, tier, or template reference"⟩] },
      trace)

/-- `POST /api/certificates/bulk`: guard the body shape (a `none` body
models a non-array `certificates` value), then process the specs
sequentially.  The guard runs before any settings read, render, insert
or dispatch. -/
def createCertificatesBulk (db : Db) (user : User)
    (render : RenderArgs → Except String String)
    (email : EmailArgs → Except String Unit)
    (uuidGen : Nat → String) (now : Nat)
    (certData : Option (List BulkSpec)) (sendEmail : Bool) :
    Db × BulkResp × List Effect :=
  match certData with
  | none => (db, BulkResp.badRequest "Invalid certificates data", [])
  | some [] => (db, BulkResp.badRequest "Invalid certificates data", [])
  | some specs =>
    let logoPath := getSetting db "company_logo"
    let sigName := jsOrOpt user.signature_name
      (getSetting db "global_signature_name")
    let sigTitle := jsOrOpt user.signature_title
      (getSetting db "global_signature_title")
    let r := specs.foldl
      (processBulkItem user render email sendEmail logoPath sigName sigTitle
        uuidGen now)
      (db, ⟨0, 0, [], []⟩, [])
    (r.1, BulkResp.done r.2.1, r.2.2)

inductive ResendResp where
  | notFound : ResendResp
  | sent : ResendResp
  | failed : String → ResendResp
  deriving Repr, DecidableEq

/-- `POST /api/certificates/:id/resend`: re-dispatch the email for an
existing row (the route's SELECT joins employees and tiers, so a missing
join partner behaves like a missing certificate), update
`email_sent`/`sent_at` on success, surface the failure on error. -/
def resendCertificate (db : Db) (user : User)
    (email : EmailArgs → Except String Unit)
    (now : Nat) (rid : Nat) : Db × ResendResp × List Effect :=
  match db.certificates.find? (fun r => r.rowId == rid) with
  | none => (db, ResendResp.notFound, [])
  | some cert =>
    match findEmployee db cert.employee_id, findTier db cert.tier_id with
    | some employee, some tier =>
      let eargs : EmailArgs :=
        { employeeName := employee.name, employeeEmail := employee.email,
          tierName := tier.name, sender := user,
          customMessage := cert.custom_message, pdfPath := cert.pdf_path }
      match email eargs with
      | Except.ok _ =>
        (setEmailSent db rid now, ResendResp.sent, [Effect.emailCalled eargs])
      | Except.error e =>
        (db, ResendResp.failed e, [Effect.emailCalled eargs])
    | _, _ => (db, ResendResp.notFound, [])

/-- C10: a bulk request whose `certificates` field is not an array
(modelled `none`) or is an empty array fails immediately with the
`Invalid certificates data` error: the database is unchanged and no
renderer or dispatcher invocation happens (empty effect trace). -/
theorem createCertificatesBulk_invalid_data (db : Db) (user : User)
    (render : RenderArgs → Except String String)
    (email : EmailArgs → Except String Unit)
    (uuidGen : Nat → String) (now : Nat) (sendEmail : Bool) :
    createCertificatesBulk db user render email uuidGen now none sendEmail =
      (db, BulkResp.badRequest "Invalid certificates data", []) ∧
      createCertificatesBulk db user render email uuidGen now (some [])
        sendEmail =
        (db, BulkResp.badRequest "Invalid certificates data", []) :=
  ⟨rfl, rfl⟩

/-- C2: when all three references resolve but the PDF renderer fails,
the single-issue operation fails with the certificate-creation error and
writes no row: the database is returned unchanged (in particular the
certificates table), and the renderer was invoked before any insert. -/
theorem createCertificate_render_failure (db : Db) (user : User)
    (render : RenderArgs → Except String String)
    (email : EmailArgs → Except String Unit)
    (uuid : String) (now : Nat) (req : CreateReq)
    (employee : Employee)
    (hemp : findEmployee db req.employee_id = some employee)
    (tier : Tier) (htier : findTier db req.tier_id = some tier)
    (template : Template)
    (htmpl : findTemplate db req.template_id = some template)
    (hrender : ∀ a, ∃ e, render a = Except.error e) :
    (createCertificate db user render email uuid now req).1 = db ∧
      (createCertificate db user render email uuid now req).2.1 =
        CreateResp.serverError "Failed to create certificate" ∧
      (createCertificate db user render email uuid now req).1.certificates
        = db.certificates := by
  unfold createCertificate
  simp only [hemp, htier, htmpl]
  split
  · exact ⟨rfl, rfl, rfl⟩
  · rename_i pdfPath heq
    obtain ⟨e, he⟩ := hrender _
    rw [heq] at he
    simp at he

/-- C2 witness: the render-failure theorem at a one-employee database
with an always-failing renderer. -/
theorem createCertificate_render_failure_witness :
    (createCertificate
        ⟨[⟨1, "Ann", "ann@x.io"⟩], [⟨2, "Gold", none⟩],
          [⟨3, "Classic", none, "cfg", true, none⟩], [], [], 10⟩
        ⟨7, "Admin", "admin", none, none⟩
        (fun _ => Except.error "disk full")
        (fun _ => Except.ok ())
        "uuid-1" 99
        ⟨1, 2, 3, none, none, none, false⟩).1.certificates = [] :=
  (createCertificate_render_failure
    ⟨[⟨1, "Ann", "ann@x.io"⟩], [⟨2, "Gold", none⟩],
      [⟨3, "Classic", none, "cfg", true, none⟩], [], [], 10⟩
    ⟨7, "Admin", "admin", none, none⟩
    (fun _ => Except.error "disk full")
    (fun _ => Except.ok ())
    "uuid-1" 99
    ⟨1, 2, 3, none, none, none, false⟩
    ⟨1, "Ann", "ann@x.io"⟩ rfl
    ⟨2, "Gold", none⟩ rfl
    ⟨3, "Classic", none, "cfg", true, none⟩ rfl
    (fun _ => ⟨"disk full", rfl⟩)).2.2

theorem setEmailSent_append_fresh (db : Db) (row : CertRow) (now : Nat)
    (hfresh : ∀ c ∈ db.certificates, c.rowId ≠ row.rowId) :
    (setEmailSent (insertCert db row) row.rowId now).certificates =
      db.certificates ++
        [{ row with email_sent := true, sent_at := some now }] := by
  unfold setEmailSent insertCert
  simp only [List.map_append, List.map_cons, List.map_nil]
  congr 1
  · conv_rhs => rw [← List.map_id db.certificates]
    apply List.map_congr_left
    intro c hc
    have hne : ¬ (c.rowId == row.rowId) = true := by
      simp only [beq_iff_eq]
      exact hfresh c hc
    rw [if_neg hne]
    rfl
  · simp

/-- C3: on a single-issue request with `send_email`, once rendering and
persistence succeeded, an email-dispatch failure does not fail the
operation — the response is still the created certificate and the
persisted row keeps `email_sent = false` and `sent_at = null`; on
dispatch success both delivery fields are set together. -/
theorem createCertificate_email_nonfatal (db : Db) (user : User)
    (render : RenderArgs → Except String String)
    (email : EmailArgs → Except String Unit)
    (uuid : String) (now : Nat) (req : CreateReq)
    (employee : Employee)
    (hemp : findEmployee db req.employee_id = some employee)
    (tier : Tier) (htier : findTier db req.tier_id = some tier)
    (template : Template)
    (htmpl : findTemplate db req.template_id = some template)
    (hrender : ∀ a, ∃ p, render a = Except.ok p)
    (hsend : req.send_email = true)
    (hfresh : ∀ c ∈ db.certificates, c.rowId ≠ db.nextRowId) :
    ((∀ a, ∃ e, email a = Except.error e) →
      ∃ row, (createCertificate db user render email uuid now req).2.1 =
          CreateResp.created row ∧
        row.email_sent = false ∧ row.sent_at = none ∧
        (createCertificate db user render email uuid now req).1.certificates
          = db.certificates ++ [row]) ∧
      ((∀ a, email a = Except.ok ()) →
        ∃ row, (createCertificate db user render email uuid now req).2.1 =
            CreateResp.created row ∧
          row.email_sent = true ∧ row.sent_at = some now ∧
          (createCertificate db user render email uuid now req).1.certificates
            = db.certificates ++ [row]) := by
  unfold createCertificate
  simp only [hemp, htier, htmpl, hsend, if_true]
  constructor
  · intro hemail
    split
    · rename_i e heq
      obtain ⟨p, hp⟩ := hrender _
      rw [heq] at hp
      simp at hp
    · rename_i pdfPath heq
      split
      · rename_i u hok
        obtain ⟨e, he⟩ := hemail _
        rw [hok] at he
        simp at he
      · rename_i e herr
        exact ⟨_, rfl, rfl, rfl, rfl⟩
  · intro hemail
    split
    · rename_i e heq
      obtain ⟨p, hp⟩ := hrender _
      rw [heq] at hp
      simp at hp
    · rename_i pdfPath heq
      split
      · rename_i u hok
        refine ⟨_, rfl, rfl, rfl, ?_⟩
        exact setEmailSent_append_fresh db _ now hfresh
      · rename_i e herr
        rw [hemail] at herr
        simp at herr

/-- C3 witness: the email-semantics theorem applied at a concrete
database with an always-failing dispatcher (failure branch). -/
theorem createCertificate_email_nonfatal_witness :
    ∃ row,
      (createCertificate
          ⟨[⟨1, "Ann", "ann@x.io"⟩], [⟨2, "Gold", none⟩],
            [⟨3, "Classic", none, "cfg", true, none⟩], [], [], 10⟩
          ⟨7, "Admin", "admin", none, none⟩
          (fun _ => Except.ok "/uploads/certificates/u.pdf")
          (fun _ => Except.error "smtp down")
          "uuid-1" 99
          ⟨1, 2, 3, none, none, none, true⟩).2.1 =
        CreateResp.created row ∧
      row.email_sent = false ∧ row.sent_at = none ∧
      (createCertificate
          ⟨[⟨1, "Ann", "ann@x.io"⟩], [⟨2, "Gold", none⟩],
            [⟨3, "Classic", none, "cfg", true, none⟩], [], [], 10⟩
          ⟨7, "Admin", "admin", none, none⟩
          (fun _ => Except.ok "/uploads/certificates/u.pdf")
          (fun _ => Except.error "smtp down")
          "uuid-1" 99
          ⟨1, 2, 3, none, none, none, true⟩).1.certificates =
        [] ++ [row] :=
  (createCertificate_email_nonfatal
    ⟨[⟨1, "Ann", "ann@x.io"⟩], [⟨2, "Gold", none⟩],
      [⟨3, "Classic", none, "cfg", true, none⟩], [], [], 10⟩
    ⟨7, "Admin", "admin", none, none⟩
    (fun _ => Except.ok "/uploads/certificates/u.pdf")
    (fun _ => Except.error "smtp down")
    "uuid-1" 99
    ⟨1, 2, 3, none, none, none, true⟩
    ⟨1, "Ann", "ann@x.io"⟩ rfl
    ⟨2, "Gold", none⟩ rfl
    ⟨3, "Classic", none, "cfg", true, none⟩ rfl
    (fun _ => ⟨"/uploads/certificates/u.pdf", rfl⟩) rfl
    (by intro c hc; simp at hc)).1
    (fun _ => ⟨"smtp down", rfl⟩)

/-- The reference triple of a certificate row. -/
def rowRef (r : CertRow) : Nat × Nat × Nat :=
  (r.employee_id, r.tier_id, r.template_id)

/-- The reference triple of a bulk item spec. -/
def specRef (s : BulkSpec) : Nat × Nat × Nat :=
  (s.employee_id, s.tier_id, s.template_id)

theorem map_rowRef_setEmailSent (db : Db) (rid : Nat) (now : Nat) :
    (setEmailSent db rid now).certificates.map rowRef =
      db.certificates.map rowRef := by
  unfold setEmailSent
  simp only [List.map_map]
  apply List.map_congr_left
  intro r _
  by_cases h : (r.rowId == rid) = true <;> simp [Function.comp, h, rowRef]

theorem processBulkItem_good (user : User)
    (render : RenderArgs → Except String String)
    (email : EmailArgs → Except String Unit)
    (sendEmail : Bool) (logoPath sigName sigTitle : Option String)
    (uuidGen : Nat → String) (now : Nat)
    (st : Db × BulkResults × List Effect) (spec : BulkSpec)
    (employee : Employee)
    (hemp : findEmployee st.1 spec.employee_id = some employee)
    (tier : Tier) (htier : findTier st.1 spec.tier_id = some tier)
    (template : Template)
    (htmpl : findTemplate st.1 spec.template_id = some template)
    (hrender : ∀ a, ∃ p, render a = Except.ok p) :
    (processBulkItem user render email sendEmail logoPath sigName sigTitle
        uuidGen now st spec).1.employees = st.1.employees ∧
      (processBulkItem user render email sendEmail logoPath sigName sigTitle
        uuidGen now st spec).1.tiers = st.1.tiers ∧
      (processBulkItem user render email sendEmail logoPath sigName sigTitle
        uuidGen now st spec).1.templates = st.1.templates ∧
      (processBulkItem user render email sendEmail logoPath sigName sigTitle
        uuidGen now st spec).1.certificates.map rowRef =
        st.1.certificates.map rowRef ++ [specRef spec] ∧
      (processBulkItem user render email sendEmail logoPath sigName sigTitle
        uuidGen now st spec).2.1.success = st.2.1.success + 1 ∧
      (processBulkItem user render email sendEmail logoPath sigName sigTitle
        uuidGen now st spec).2.1.failed = st.2.1.failed ∧
      (processBulkItem user render email sendEmail logoPath sigName sigTitle
        uuidGen now st spec).2.1.errors = st.2.1.errors := by
  unfold processBulkItem
  simp only [hemp, htier, htmpl]
  split
  · rename_i e heq
    obtain ⟨p, hp⟩ := hrender _
    rw [heq] at hp
    simp at hp
  · rename_i pdfPath heq
    by_cases hs : sendEmail
    · simp only [hs, if_true]
      split
    -- email success: the delivery update touches no reference triple
      · refine ⟨rfl, rfl, rfl, ?_, rfl, rfl, rfl⟩
        rw [map_rowRef_setEmailSent]
        simp [insertCert, rowRef, specRef]
      · refine ⟨rfl, rfl, rfl, ?_, rfl, rfl, rfl⟩
        simp [insertCert, rowRef, specRef]
    · simp only [hs, if_false]
      refine ⟨rfl, rfl, rfl, ?_, rfl, rfl, rfl⟩
      simp [insertCert, rowRef, specRef]

theorem processBulkItem_badTier (user : User)
    (render : RenderArgs → Except String String)
    (email : EmailArgs → Except String Unit)
    (sendEmail : Bool) (logoPath sigName sigTitle : Option String)
    (uuidGen : Nat → String) (now : Nat)
    (st : Db × BulkResults × List Effect) (spec : BulkSpec)
    (htier : findTier st.1 spec.tier_id = none) :
    processBulkItem user render email sendEmail logoPath sigName sigTitle
        uuidGen now st spec =
      (st.1,
        { st.2.1 with
            failed := st.2.1.failed + 1,
            errors := st.2.1.errors ++
              [⟨spec, "Invalid employee, tier, or template reference"⟩] },
        st.2.2) := by
  cases he : findEmployee st.1 spec.employee_id <;>
    cases htpl : findTemplate st.1 spec.template_id <;>
    simp [processBulkItem, he, htier, htpl]

theorem bulkFold_good (user : User)
    (render : RenderArgs → Except String String)
    (email : EmailArgs → Except String Unit)
    (sendEmail : Bool) (logoPath sigName sigTitle : Option String)
    (uuidGen : Nat → String) (now : Nat)
    (hrender : ∀ a, ∃ p, render a = Except.ok p) :
    ∀ (specs : List BulkSpec) (st : Db × BulkResults × List Effect),
      (∀ s ∈ specs, (findEmployee st.1 s.employee_id).isSome ∧
        (findTier st.1 s.tier_id).isSome ∧
        (findTemplate st.1 s.template_id).isSome) →
      ((specs.foldl (processBulkItem user render email sendEmail logoPath
          sigName sigTitle uuidGen now) st).1.employees = st.1.employees ∧
        (specs.foldl (processBulkItem user render email sendEmail logoPath
          sigName sigTitle uuidGen now) st).1.tiers = st.1.tiers ∧
        (specs.foldl (processBulkItem user render email sendEmail logoPath
          sigName sigTitle uuidGen now) st).1.templates = st.1.templates ∧
        (specs.foldl (processBulkItem user render email sendEmail logoPath
          sigName sigTitle uuidGen now) st).1.certificates.map rowRef =
          st.1.certificates.map rowRef ++ specs.map specRef ∧
        (specs.foldl (processBulkItem user render email sendEmail logoPath
          sigName sigTitle uuidGen now) st).2.1.success =
          st.2.1.success + specs.length ∧
        (specs.foldl (processBulkItem user render email sendEmail logoPath
          sigName sigTitle uuidGen now) st).2.1.failed = st.2.1.failed ∧
        (specs.foldl (processBulkItem user render email sendEmail logoPath
          sigName sigTitle uuidGen now) st).2.1.errors = st.2.1.errors) := by
  intro specs
  induction specs with
  | nil => intro st _; simp
  | cons s specs ih =>
    intro st hgood
    have hs := hgood s (List.mem_cons_self s specs)
    obtain ⟨employee, hemp⟩ := Option.isSome_iff_exists.mp hs.1
    obtain ⟨tier, htier⟩ := Option.isSome_iff_exists.mp hs.2.1
    obtain ⟨template, htmpl⟩ := Option.isSome_iff_exists.mp hs.2.2
    have hstep := processBulkItem_good user render email sendEmail logoPath
      sigName sigTitle uuidGen now st s employee hemp tier htier template
      htmpl hrender
    simp only [List.foldl_cons]
    have hgood' : ∀ x ∈ specs,
        (findEmployee (processBulkItem user render email sendEmail logoPath
          sigName sigTitle uuidGen now st s).1 x.employee_id).isSome ∧
        (findTier (processBulkItem user render email sendEmail logoPath
          sigName sigTitle uuidGen now st s).1 x.tier_id).isSome ∧
        (findTemplate (processBulkItem user render email sendEmail logoPath
          sigName sigTitle uuidGen now st s).1 x.template_id).isSome := by
      intro x hx
      have hx' := hgood x (List.mem_cons_of_mem s hx)
      unfold findEmployee findTier findTemplate
      rw [hstep.1, hstep.2.1, hstep.2.2.1]
      exact hx'
    have hrest := ih (processBulkItem user render email sendEmail logoPath
      sigName sigTitle uuidGen now st s) hgood'
    refine ⟨?_, ?_, ?_, ?_, ?_, ?_, ?_⟩
    · rw [hrest.1, hstep.1]
    · rw [hrest.2.1, hstep.2.1]
    · rw [hrest.2.2.1, hstep.2.2.1]
    · rw [hrest.2.2.2.1, hstep.2.2.2.1]
      simp
    · rw [hrest.2.2.2.2.1, hstep.2.2.2.2.1]
      simp only [List.length_cons]
      omega
    · rw [hrest.2.2.2.2.2.1, hstep.2.2.2.2.2.1]
    · rw [hrest.2.2.2.2.2.2, hstep.2.2.2.2.2.2]

theorem createCertificatesBulk_cons (db : Db) (user : User)
    (render : RenderArgs → Except String String)
    (email : EmailArgs → Except String Unit)
    (uuidGen : Nat → String) (now : Nat) (s : BulkSpec)
    (rest : List BulkSpec) (sendEmail : Bool) :
    createCertificatesBulk db user render email uuidGen now
        (some (s :: rest)) sendEmail =
      (((s :: rest).foldl
          (processBulkItem user render email sendEmail
            (getSetting db "company_logo")
            (jsOrOpt user.signature_name (getSetting db "global_signature_name"))
            (jsOrOpt user.signature_title (getSetting db "global_signature_title"))
            uuidGen now)
          (db, ⟨0, 0, [], []⟩, [])).1,
        BulkResp.done ((s :: rest).foldl
          (processBulkItem user render email sendEmail
            (getSetting db "company_logo")
            (jsOrOpt user.signature_name (getSetting db "global_signature_name"))
            (jsOrOpt user.signature_title (getSetting db "global_signature_title"))
            uuidGen now)
          (db, ⟨0, 0, [], []⟩, [])).2.1,
        ((s :: rest).foldl
          (processBulkItem user render email sendEmail
            (getSetting db "company_logo")
            (jsOrOpt user.signature_name (getSetting db "global_signature_name"))
            (jsOrOpt user.signature_title (getSetting db "global_signature_title"))
            uuidGen now)
          (db, ⟨0, 0, [], []⟩, [])).2.2) := rfl

/-- Helper: in a bulk request where exactly one spec references a
missing tier and every other spec is fully valid (with the renderer
succeeding), the response reports `success = N-1`, `failed = 1`, the
single recorded error carries the offending spec and the
invalid-reference message, and one certificate row per good spec (with
that spec's reference triple) is in storage afterward. -/
theorem createCertificatesBulk_partial_failure (db : Db) (user : User)
    (render : RenderArgs → Except String String)
    (email : EmailArgs → Except String Unit)
    (uuidGen : Nat → String) (now : Nat) (sendEmail : Bool)
    (pre post : List BulkSpec) (bad : BulkSpec)
    (hgood : ∀ s ∈ pre ++ post,
      (findEmployee db s.employee_id).isSome ∧
      (findTier db s.tier_id).isSome ∧
      (findTemplate db s.template_id).isSome)
    (hbad : findTier db bad.tier_id = none)
    (hrender : ∀ a, ∃ p, render a = Except.ok p) :
    ∃ res : BulkResults,
      (createCertificatesBulk db user render email uuidGen now
        (some (pre ++ bad :: post)) sendEmail).2.1 = BulkResp.done res ∧
      res.success = pre.length + post.length ∧
      res.failed = 1 ∧
      res.errors = [⟨bad, "Invalid employee, tier, or template reference"⟩] ∧
      (createCertificatesBulk db user render email uuidGen now
        (some (pre ++ bad :: post)) sendEmail).1.certificates.map rowRef =
        db.certificates.map rowRef ++ pre.map specRef ++ post.map specRef ∧
      ∀ s ∈ pre ++ post,
        ∃ row ∈ (createCertificatesBulk db user render email uuidGen now
          (some (pre ++ bad :: post)) sendEmail).1.certificates,
          rowRef row = specRef s := by
  obtain ⟨s0, rest, hsr⟩ : ∃ s0 rest, pre ++ bad :: post = s0 :: rest := by
    cases pre with
    | nil => exact ⟨bad, post, rfl⟩
    | cons p pre' => exact ⟨p, pre' ++ bad :: post, rfl⟩
  rw [hsr, createCertificatesBulk_cons, ← hsr]
  set logoPath := getSetting db "company_logo" with hlogo
  set sigName := jsOrOpt user.signature_name
    (getSetting db "global_signature_name") with hsig
  set sigTitle := jsOrOpt user.signature_title
    (getSetting db "global_signature_title") with hsigt
  set step := processBulkItem user render email sendEmail logoPath sigName
    sigTitle uuidGen now with hstepdef
  rw [List.foldl_append]
  -- the fold over `pre`
  have hpre := bulkFold_good user render email sendEmail logoPath sigName
    sigTitle uuidGen now hrender pre (db, ⟨0, 0, [], []⟩, [])
    (by
      intro s hsmem
      exact hgood s (List.mem_append_left post hsmem))
  set st1 := pre.foldl step (db, ⟨0, 0, [], []⟩, []) with hst1
  -- the bad item
  have hbad1 : findTier st1.1 bad.tier_id = none := by
    unfold findTier
    rw [hpre.2.1]
    exact hbad
  rw [List.foldl_cons]
  have hbadeq : step st1 bad =
      (st1.1,
        { st1.2.1 with
            failed := st1.2.1.failed + 1,
            errors := st1.2.1.errors ++
              [⟨bad, "Invalid employee, tier, or template reference"⟩] },
        st1.2.2) :=
    processBulkItem_badTier user render email sendEmail logoPath
      sigName sigTitle uuidGen now st1 bad hbad1
  rw [hbadeq]
  set st2 : Db × BulkResults × List Effect := (st1.1,
    { st1.2.1 with
        failed := st1.2.1.failed + 1,
        errors := st1.2.1.errors ++
          [⟨bad, "Invalid employee, tier, or template reference"⟩] },
    st1.2.2) with hst2
  -- the fold over `post`
  have hpost := bulkFold_good user render email sendEmail logoPath sigName
    sigTitle uuidGen now hrender post st2
    (by
      intro s hsmem
      have := hgood s (List.mem_append_right pre hsmem)
      show (findEmployee st1.1 s.employee_id).isSome ∧
        (findTier st1.1 s.tier_id).isSome ∧
        (findTemplate st1.1 s.template_id).isSome
      unfold findEmployee findTier findTemplate
      rw [hpre.1, hpre.2.1, hpre.2.2.1]
      exact this)
  refine ⟨(post.foldl step st2).2.1, rfl, ?_, ?_, ?_, ?_, ?_⟩
  · rw [hpost.2.2.2.2.1]
    show st1.2.1.success + post.length = pre.length + post.length
    rw [hpre.2.2.2.2.1]
    show 0 + pre.length + post.length = pre.length + post.length
    omega
  · rw [hpost.2.2.2.2.2.1]
    show st1.2.1.failed + 1 = 1
    rw [hpre.2.2.2.2.2.1]
  · rw [hpost.2.2.2.2.2.2]
    show st1.2.1.errors ++ _ = _
    rw [hpre.2.2.2.2.2.2]
    rfl
  · rw [hpost.2.2.2.1]
    show st1.1.certificates.map rowRef ++ post.map specRef = _
    rw [hpre.2.2.2.1]
  · intro s hsmem
    have hmem : specRef s ∈
        (post.foldl step st2).1.certificates.map rowRef := by
      rw [hpost.2.2.2.1]
      show specRef s ∈ st1.1.certificates.map rowRef ++ post.map specRef
      rw [hpre.2.2.2.1]
      rcases List.mem_append.mp hsmem with h | h
      · exact List.mem_append_left _
          (List.mem_append_right _ (List.mem_map_of_mem specRef h))
      · exact List.mem_append_right _ (List.mem_map_of_mem specRef h)
    rcases List.mem_map.mp hmem with ⟨row, hrow, hrefeq⟩
    exact ⟨row, hrow, hrefeq⟩

/-- One loop iteration when the three references resolve but the
renderer rejects every argument bundle with the message `eMsg`: the
per-item try/catch records the failure in the error list with that
message, the failed counter advances, and the database and success
counter are untouched. -/
theorem processBulkItem_renderFail (user : User)
    (render : RenderArgs → Except String String)
    (email : EmailArgs → Except String Unit)
    (sendEmail : Bool) (logoPath sigName sigTitle : Option String)
    (uuidGen : Nat → String) (now : Nat)
    (st : Db × BulkResults × List Effect) (spec : BulkSpec) (eMsg : String)
    (employee : Employee)
    (hemp : findEmployee st.1 spec.employee_id = some employee)
    (tier : Tier) (htier : findTier st.1 spec.tier_id = some tier)
    (template : Template)
    (htmpl : findTemplate st.1 spec.template_id = some template)
    (hrender : ∀ a, render a = Except.error eMsg) :
    (processBulkItem user render email sendEmail logoPath sigName sigTitle
        uuidGen now st spec).1 = st.1 ∧
      (processBulkItem user render email sendEmail logoPath sigName sigTitle
        uuidGen now st spec).2.1.success = st.2.1.success ∧
      (processBulkItem user render email sendEmail logoPath sigName sigTitle
        uuidGen now st spec).2.1.failed = st.2.1.failed + 1 ∧
      (processBulkItem user render email sendEmail logoPath sigName sigTitle
        uuidGen now st spec).2.1.errors = st.2.1.errors ++ [⟨spec, eMsg⟩] := by
  unfold processBulkItem
  simp only [hemp, htier, htmpl, hrender]
  exact ⟨trivial, trivial, trivial, trivial⟩

/-- Folding the loop body over a spec list whose references all resolve,
with a renderer that rejects everything with message `eMsg`: every item
fails individually, every failure is recorded with the renderer's
message, and the database is unchanged. -/
theorem bulkFold_renderFail (user : User)
    (render : RenderArgs → Except String String)
    (email : EmailArgs → Except String Unit)
    (sendEmail : Bool) (logoPath sigName sigTitle : Option String)
    (uuidGen : Nat → String) (now : Nat) (eMsg : String)
    (hrender : ∀ a, render a = Except.error eMsg) :
    ∀ (specs : List BulkSpec) (st : Db × BulkResults × List Effect),
      (∀ s ∈ specs, (findEmployee st.1 s.employee_id).isSome ∧
        (findTier st.1 s.tier_id).isSome ∧
        (findTemplate st.1 s.template_id).isSome) →
      ((specs.foldl (processBulkItem user render email sendEmail logoPath
          sigName sigTitle uuidGen now) st).1 = st.1 ∧
        (specs.foldl (processBulkItem user render email sendEmail logoPath
          sigName sigTitle uuidGen now) st).2.1.success = st.2.1.success ∧
        (specs.foldl (processBulkItem user render email sendEmail logoPath
          sigName sigTitle uuidGen now) st).2.1.failed =
          st.2.1.failed + specs.length ∧
        (specs.foldl (processBulkItem user render email sendEmail logoPath
          sigName sigTitle uuidGen now) st).2.1.errors =
          st.2.1.errors ++ specs.map (fun s => (⟨s, eMsg⟩ : BulkItemError))) := by
  intro specs
  induction specs with
  | nil => intro st _; simp
  | cons s specs ih =>
    intro st hgood
    have hs := hgood s (List.mem_cons_self s specs)
    obtain ⟨employee, hemp⟩ := Option.isSome_iff_exists.mp hs.1
    obtain ⟨tier, htier⟩ := Option.isSome_iff_exists.mp hs.2.1
    obtain ⟨template, htmpl⟩ := Option.isSome_iff_exists.mp hs.2.2
    have hstep := processBulkItem_renderFail user render email sendEmail
      logoPath sigName sigTitle uuidGen now st s eMsg employee hemp tier
      htier template htmpl hrender
    simp only [List.foldl_cons]
    have hgood' : ∀ x ∈ specs,
        (findEmployee (processBulkItem user render email sendEmail logoPath
          sigName sigTitle uuidGen now st s).1 x.employee_id).isSome ∧
        (findTier (processBulkItem user render email sendEmail logoPath
          sigName sigTitle uuidGen now st s).1 x.tier_id).isSome ∧
        (findTemplate (processBulkItem user render email sendEmail logoPath
          sigName sigTitle uuidGen now st s).1 x.template_id).isSome := by
      intro x hx
      rw [hstep.1]
      exact hgood x (List.mem_cons_of_mem s hx)
    have hrest := ih (processBulkItem user render email sendEmail logoPath
      sigName sigTitle uuidGen now st s) hgood'
    refine ⟨?_, ?_, ?_, ?_⟩
    · rw [hrest.1, hstep.1]
    · rw [hrest.2.1, hstep.2.1]
    · rw [hrest.2.2.1, hstep.2.2.1]
      simp only [List.length_cons]
      omega
    · rw [hrest.2.2.2, hstep.2.2.2]
      simp

/-- C1 counterexample: a dispatch failure is NOT caught-and-recorded
per item.  On a one-spec batch with valid references, a succeeding
renderer and a dispatcher that always rejects, the bulk response counts
the item as a success (`success = 1`, `failed = 0`, no error entry, the
item listed among the created certificates); the inner catch only
swallows the rejection, leaving the inserted row with `email_sent = 0`
and `sent_at` NULL. -/
theorem createCertificatesBulk_dispatch_swallowed :
    (createCertificatesBulk
        ⟨[⟨1, "Ann", "ann@x.io"⟩], [⟨2, "Gold", none⟩],
          [⟨3, "Classic", none, "cfg", true, none⟩], [], [], 10⟩
        ⟨7, "Admin", "admin", none, none⟩
        (fun _ => Except.ok "/uploads/certificates/u.pdf")
        (fun _ => Except.error "smtp down")
        (fun _ => "uuid") 99
        (some [⟨1, 2, 3, none, none, none⟩]) true).2.1 =
      BulkResp.done ⟨1, 0, [], [(10, "Ann")]⟩ ∧
    (createCertificatesBulk
        ⟨[⟨1, "Ann", "ann@x.io"⟩], [⟨2, "Gold", none⟩],
          [⟨3, "Classic", none, "cfg", true, none⟩], [], [], 10⟩
        ⟨7, "Admin", "admin", none, none⟩
        (fun _ => Except.ok "/uploads/certificates/u.pdf")
        (fun _ => Except.error "smtp down")
        (fun _ => "uuid") 99
        (some [⟨1, 2, 3, none, none, none⟩]) true).1.certificates.map
      (fun r => (r.rowId, r.email_sent, r.sent_at)) =
      [(10, false, none)] := by
  exact ⟨rfl, rfl⟩

/-- C1 (amended): failures local to one bulk item never abort the
sibling items, but only reference and renderer failures are recorded
per item; a dispatch failure is swallowed.  (1) When exactly one spec
references a missing tier and the others are valid under a succeeding
renderer, the response has `success = N-1`, `failed = 1`, the single
error carries the offending spec and the invalid-reference message,
and one row per good spec is in storage.  (2) When the references are
valid but the renderer rejects every item with message `eMsg`, every
item fails individually, each failure is recorded with that message,
and the database is unchanged.  (3) When references are valid, the
renderer succeeds and the dispatcher rejects every item, the response
still reports every item as a success with no error entries, and one
row per spec is in storage. -/
theorem createCertificatesBulk_item_isolation (db : Db) (user : User)
    (uuidGen : Nat → String) (now : Nat) (sendEmail : Bool) :
    (∀ (render : RenderArgs → Except String String)
      (email : EmailArgs → Except String Unit)
      (pre post : List BulkSpec) (bad : BulkSpec),
      (∀ s ∈ pre ++ post, (findEmployee db s.employee_id).isSome ∧
        (findTier db s.tier_id).isSome ∧
        (findTemplate db s.template_id).isSome) →
      findTier db bad.tier_id = none →
      (∀ a, ∃ p, render a = Except.ok p) →
      ∃ res : BulkResults,
        (createCertificatesBulk db user render email uuidGen now
          (some (pre ++ bad :: post)) sendEmail).2.1 = BulkResp.done res ∧
        res.success = pre.length + post.length ∧
        res.failed = 1 ∧
        res.errors =
          [⟨bad, "Invalid employee, tier, or template reference"⟩] ∧
        ∀ s ∈ pre ++ post,
          ∃ row ∈ (createCertificatesBulk db user render email uuidGen now
            (some (pre ++ bad :: post)) sendEmail).1.certificates,
            rowRef row = specRef s) ∧
    (∀ (render : RenderArgs → Except String String)
      (email : EmailArgs → Except String Unit)
      (eMsg : String) (specs : List BulkSpec), specs ≠ [] →
      (∀ s ∈ specs, (findEmployee db s.employee_id).isSome ∧
        (findTier db s.tier_id).isSome ∧
        (findTemplate db s.template_id).isSome) →
      (∀ a, render a = Except.error eMsg) →
      ∃ res : BulkResults,
        (createCertificatesBulk db user render email uuidGen now
          (some specs) sendEmail).2.1 = BulkResp.done res ∧
        res.success = 0 ∧
        res.failed = specs.length ∧
        res.errors = specs.map (fun s => (⟨s, eMsg⟩ : BulkItemError)) ∧
        (createCertificatesBulk db user render email uuidGen now
          (some specs) sendEmail).1 = db) ∧
    (∀ (render : RenderArgs → Except String String)
      (email : EmailArgs → Except String Unit)
      (eMsg : String) (specs : List BulkSpec), specs ≠ [] →
      (∀ s ∈ specs, (findEmployee db s.employee_id).isSome ∧
        (findTier db s.tier_id).isSome ∧
        (findTemplate db s.template_id).isSome) →
      (∀ a, ∃ p, render a = Except.ok p) →
      (∀ a, email a = Except.error eMsg) →
      ∃ res : BulkResults,
        (createCertificatesBulk db user render email uuidGen now
          (some specs) true).2.1 = BulkResp.done res ∧
        res.success = specs.length ∧
        res.failed = 0 ∧
        res.errors = [] ∧
        (createCertificatesBulk db user render email uuidGen now
          (some specs) true).1.certificates.map rowRef =
          db.certificates.map rowRef ++ specs.map specRef) := by
  refine ⟨?_, ?_, ?_⟩
  · intro render email pre post bad hgood hbad hrender
    obtain ⟨res, h1, h2, h3, h4, -, h6⟩ :=
      createCertificatesBulk_partial_failure db user render email uuidGen
        now sendEmail pre post bad hgood hbad hrender
    exact ⟨res, h1, h2, h3, h4, h6⟩
  · intro render email eMsg specs hne hgood hrender
    obtain ⟨s0, rest, hsr⟩ : ∃ s0 rest, specs = s0 :: rest := by
      cases specs with
      | nil => exact absurd rfl hne
      | cons a l => exact ⟨a, l, rfl⟩
    subst hsr
    rw [createCertificatesBulk_cons]
    have hfold := bulkFold_renderFail user render email sendEmail
      (getSetting db "company_logo")
      (jsOrOpt user.signature_name (getSetting db "global_signature_name"))
      (jsOrOpt user.signature_title (getSetting db "global_signature_title"))
      uuidGen now eMsg hrender (s0 :: rest) (db, ⟨0, 0, [], []⟩, [])
      (by intro s hsmem; exact hgood s hsmem)
    refine ⟨_, rfl, ?_, ?_, ?_, ?_⟩
    · exact hfold.2.1
    · rw [hfold.2.2.1]
      show 0 + (s0 :: rest).length = (s0 :: rest).length
      omega
    · rw [hfold.2.2.2]
      rfl
    · exact hfold.1
  · intro render email eMsg specs hne hgood hrender hemail
    obtain ⟨s0, rest, hsr⟩ : ∃ s0 rest, specs = s0 :: rest := by
      cases specs with
      | nil => exact absurd rfl hne
      | cons a l => exact ⟨a, l, rfl⟩
    subst hsr
    rw [createCertificatesBulk_cons]
    have hfold := bulkFold_good user render email true
      (getSetting db "company_logo")
      (jsOrOpt user.signature_name (getSetting db "global_signature_name"))
      (jsOrOpt user.signature_title (getSetting db "global_signature_title"))
      uuidGen now hrender (s0 :: rest) (db, ⟨0, 0, [], []⟩, [])
      (by intro s hsmem; exact hgood s hsmem)
    refine ⟨_, rfl, ?_, ?_, ?_, ?_⟩
    · rw [hfold.2.2.2.2.1]
      show 0 + (s0 :: rest).length = (s0 :: rest).length
      omega
    · exact hfold.2.2.2.2.2.1
    · exact hfold.2.2.2.2.2.2
    · exact hfold.2.2.2.1

/-- C1 witness: over a one-employee, one-tier, one-template database,
(1) a two-spec batch whose second spec references tier 99 yields one
success and one recorded invalid-reference failure; (2) a one-spec
batch under an always-failing renderer yields one recorded failure
carrying the renderer's message and no success; (3) a one-spec batch
under an always-failing dispatcher is reported as one success with no
error entries. -/
theorem createCertificatesBulk_item_isolation_witness :
    (∃ res : BulkResults,
      (createCertificatesBulk
        ⟨[⟨1, "Ann", "ann@x.io"⟩], [⟨2, "Gold", none⟩],
          [⟨3, "Classic", none, "cfg", true, none⟩], [], [], 10⟩
        ⟨7, "Admin", "admin", none, none⟩
        (fun _ => Except.ok "/uploads/certificates/u.pdf")
        (fun _ => Except.ok ())
        (fun _ => "uuid") 99
        (some [⟨1, 2, 3, none, none, none⟩, ⟨1, 99, 3, none, none, none⟩])
        false).2.1 = BulkResp.done res ∧
      res.success = 1 ∧ res.failed = 1 ∧
      res.errors = [⟨⟨1, 99, 3, none, none, none⟩,
        "Invalid employee, tier, or template reference"⟩]) ∧
    (∃ res : BulkResults,
      (createCertificatesBulk
        ⟨[⟨1, "Ann", "ann@x.io"⟩], [⟨2, "Gold", none⟩],
          [⟨3, "Classic", none, "cfg", true, none⟩], [], [], 10⟩
        ⟨7, "Admin", "admin", none, none⟩
        (fun _ => Except.error "render boom")
        (fun _ => Except.ok ())
        (fun _ => "uuid") 99
        (some [⟨1, 2, 3, none, none, none⟩])
        false).2.1 = BulkResp.done res ∧
      res.success = 0 ∧ res.failed = 1 ∧
      res.errors = [⟨⟨1, 2, 3, none, none, none⟩, "render boom"⟩]) ∧
    (∃ res : BulkResults,
      (createCertificatesBulk
        ⟨[⟨1, "Ann", "ann@x.io"⟩], [⟨2, "Gold", none⟩],
          [⟨3, "Classic", none, "cfg", true, none⟩], [], [], 10⟩
        ⟨7, "Admin", "admin", none, none⟩
        (fun _ => Except.ok "/uploads/certificates/u.pdf")
        (fun _ => Except.error "smtp down")
        (fun _ => "uuid") 99
        (some [⟨1, 2, 3, none, none, none⟩])
        true).2.1 = BulkResp.done res ∧
      res.success = 1 ∧ res.failed = 0 ∧ res.errors = []) := by
  refine ⟨?_, ?_, ?_⟩
  · obtain ⟨res, h1, h2, h3, h4, -⟩ :=
      (createCertificatesBulk_item_isolation
        ⟨[⟨1, "Ann", "ann@x.io"⟩], [⟨2, "Gold", none⟩],
          [⟨3, "Classic", none, "cfg", true, none⟩], [], [], 10⟩
        ⟨7, "Admin", "admin", none, none⟩
        (fun _ => "uuid") 99 false).1
        (fun _ => Except.ok "/uploads/certificates/u.pdf")
        (fun _ => Except.ok ())
        [⟨1, 2, 3, none, none, none⟩] [] ⟨1, 99, 3, none, none, none⟩
        (by
          intro s hs
          simp only [List.append_nil, List.mem_singleton] at hs
          subst hs
          exact ⟨by decide, by decide, by decide⟩)
        (by decide)
        (fun _ => ⟨"/uploads/certificates/u.pdf", rfl⟩)
    exact ⟨res, h1, h2, h3, h4⟩
  · obtain ⟨res, h1, h2, h3, h4, -⟩ :=
      (createCertificatesBulk_item_isolation
        ⟨[⟨1, "Ann", "ann@x.io"⟩], [⟨2, "Gold", none⟩],
          [⟨3, "Classic", none, "cfg", true, none⟩], [], [], 10⟩
        ⟨7, "Admin", "admin", none, none⟩
        (fun _ => "uuid") 99 false).2.1
        (fun _ => Except.error "render boom")
        (fun _ => Except.ok ())
        "render boom" [⟨1, 2, 3, none, none, none⟩]
        (by decide)
        (by
          intro s hs
          simp only [List.mem_singleton] at hs
          subst hs
          exact ⟨by decide, by decide, by decide⟩)
        (fun _ => rfl)
    exact ⟨res, h1, h2, h3, h4⟩
  · obtain ⟨res, h1, h2, h3, h4, -⟩ :=
      (createCertificatesBulk_item_isolation
        ⟨[⟨1, "Ann", "ann@x.io"⟩], [⟨2, "Gold", none⟩],
          [⟨3, "Classic", none, "cfg", true, none⟩], [], [], 10⟩
        ⟨7, "Admin", "admin", none, none⟩
        (fun _ => "uuid") 99 false).2.2
        (fun _ => Except.ok "/uploads/certificates/u.pdf")
        (fun _ => Except.error "smtp down")
        "smtp down" [⟨1, 2, 3, none, none, none⟩]
        (by decide)
        (by
          intro s hs
          simp only [List.mem_singleton] at hs
          subst hs
          exact ⟨by decide, by decide, by decide⟩)
        (fun _ => ⟨"/uploads/certificates/u.pdf", rfl⟩)
        (fun _ => rfl)
    exact ⟨res, h1, h2, h3, h4⟩

/-! ## The delivery-status invariant -/

/-- `email_sent = 1` exactly when `sent_at` is non-null, for every
certificate row. -/
def emailConsistent (db : Db) : Prop :=
  ∀ row ∈ db.certificates, row.email_sent = true ↔ row.sent_at ≠ none

theorem emailConsistent_insert (db : Db) (row : CertRow)
    (h : emailConsistent db) (h1 : row.email_sent = false)
    (h2 : row.sent_at = none) : emailConsistent (insertCert db row) := by
  intro r hr
  rcases List.mem_append.mp hr with hm | hm
  · exact h r hm
  · rcases List.mem_singleton.mp hm with rfl
    rw [h1, h2]
    simp

theorem emailConsistent_setEmailSent (db : Db) (rid : Nat) (now : Nat)
    (h : emailConsistent db) : emailConsistent (setEmailSent db rid now) := by
  intro r hr
  rcases List.mem_map.mp hr with ⟨r0, hr0, hmap⟩
  by_cases hc : (r0.rowId == rid) = true
  · rw [← hmap, if_pos hc]
    simp
  · rw [← hmap, if_neg hc]
    exact h r0 hr0

theorem emailConsistent_create (db : Db) (user : User)
    (render : RenderArgs → Except String String)
    (email : EmailArgs → Except String Unit)
    (uuid : String) (now : Nat) (req : CreateReq)
    (h : emailConsistent db) :
    emailConsistent (createCertificate db user render email uuid now req).1 := by
  simp only [createCertificate]
  repeat' split
  all_goals
    first
      | exact h
      | exact emailConsistent_insert _ _ h rfl rfl
      | exact emailConsistent_setEmailSent _ _ _
          (emailConsistent_insert _ _ h rfl rfl)

theorem emailConsistent_processBulkItem (user : User)
    (render : RenderArgs → Except String String)
    (email : EmailArgs → Except String Unit)
    (sendEmail : Bool) (logoPath sigName sigTitle : Option String)
    (uuidGen : Nat → String) (now : Nat)
    (st : Db × BulkResults × List Effect) (spec : BulkSpec)
    (h : emailConsistent st.1) :
    emailConsistent (processBulkItem user render email sendEmail logoPath
      sigName sigTitle uuidGen now st spec).1 := by
  simp only [processBulkItem]
  repeat' split
  all_goals
    first
      | exact h
      | exact emailConsistent_insert _ _ h rfl rfl
      | exact emailConsistent_setEmailSent _ _ _
          (emailConsistent_insert _ _ h rfl rfl)

theorem emailConsistent_bulk (db : Db) (user : User)
    (render : RenderArgs → Except String String)
    (email : EmailArgs → Except String Unit)
    (uuidGen : Nat → String) (now : Nat)
    (certData : Option (List BulkSpec)) (sendEmail : Bool)
    (h : emailConsistent db) :
    emailConsistent (createCertificatesBulk db user render email uuidGen now
      certData sendEmail).1 := by
  have hfold : ∀ (specs : List BulkSpec)
      (st : Db × BulkResults × List Effect), emailConsistent st.1 →
      emailConsistent ((specs.foldl (processBulkItem user render email
        sendEmail (getSetting db "company_logo")
        (jsOrOpt user.signature_name (getSetting db "global_signature_name"))
        (jsOrOpt user.signature_title (getSetting db "global_signature_title"))
        uuidGen now) st)).1 := by
    intro specs
    induction specs with
    | nil => intro st hst; exact hst
    | cons s specs ih =>
      intro st hst
      exact ih _ (emailConsistent_processBulkItem _ _ _ _ _ _ _ _ _ _ _ hst)
  match certData with
  | none => exact h
  | some [] => exact h
  | some (s :: rest) => exact hfold (s :: rest) (db, ⟨0, 0, [], []⟩, []) h

theorem emailConsistent_resend (db : Db) (user : User)
    (email : EmailArgs → Except String Unit) (now : Nat) (rid : Nat)
    (h : emailConsistent db) :
    emailConsistent (resendCertificate db user email now rid).1 := by
  simp only [resendCertificate]
  repeat' split
  all_goals
    first
      | exact h
      | exact emailConsistent_setEmailSent _ _ _ h

/-- One request against the certificate routes, with its environment
(sender, oracles, uuid source, timestamp). -/
inductive Op where
  | create : User → (RenderArgs → Except String String) →
      (EmailArgs → Except String Unit) → String → Nat → CreateReq → Op
  | bulk : User → (RenderArgs → Except String String) →
      (EmailArgs → Except String Unit) → (Nat → String) → Nat →
      Option (List BulkSpec) → Bool → Op
  | resend : User → (EmailArgs → Except String Unit) → Nat → Nat → Op

def applyOp (db : Db) : Op → Db
  | Op.create u r e uu n req => (createCertificate db u r e uu n req).1
  | Op.bulk u r e ug n body se =>
    (createCertificatesBulk db u r e ug n body se).1
  | Op.resend u e n rid => (resendCertificate db u e n rid).1

def applyOps (db : Db) (ops : List Op) : Db := ops.foldl applyOp db

/-- C9: rows are inserted with `email_sent = false` and `sent_at` null,
and the only mutation of either field is the single delivery-success
update setting both together — so across every sequence of single-issue,
bulk-issue, and resend operations, `email_sent = true` exactly when
`sent_at` is non-null, on every row. -/
theorem emailConsistent_applyOps (db : Db) (ops : List Op)
    (h : emailConsistent db) : emailConsistent (applyOps db ops) := by
  induction ops generalizing db with
  | nil => exact h
  | cons op ops ih =>
    show emailConsistent (applyOps (applyOp db op) ops)
    apply ih
    cases op with
    | create u r e uu n req => exact emailConsistent_create db u r e uu n req h
    | bulk u r e ug n body se => exact emailConsistent_bulk db u r e ug n body se h
    | resend u e n rid => exact emailConsistent_resend db u e n rid h

/-- C9 witness: the invariant carried across a concrete operation
sequence (a successful create with email, then a resend) on an initially
empty database. -/
theorem emailConsistent_applyOps_witness :
    emailConsistent (applyOps ⟨[⟨1, "Ann", "ann@x.io"⟩], [⟨2, "Gold", none⟩],
      [⟨3, "Classic", none, "cfg", true, none⟩], [], [], 10⟩
      [Op.create ⟨7, "Admin", "admin", none, none⟩
        (fun _ => Except.ok "/uploads/certificates/u.pdf")
        (fun _ => Except.ok ()) "uuid-1" 99
        ⟨1, 2, 3, none, none, none, true⟩,
       Op.resend ⟨7, "Admin", "admin", none, none⟩
        (fun _ => Except.error "smtp down") 120 10]) :=
  emailConsistent_applyOps _ _ (by intro r hr; cases hr)

/-! ## The templates route: the default flag -/

structure TemplatesTable where
  rows : List Template
  nextId : Nat

structure CreateTemplateReq where
  name : String
  description : Option String
  design_config : String
  is_default : Bool

/-- `UPDATE templates SET is_default = 0` (no WHERE clause). -/
def clearDefaults (rows : List Template) : List Template :=
  rows.map (fun t => { t with is_default := false })

/-- `POST /api/templates`: when the request flags the new template as
default, first clear the flag on every row, then insert. -/
def createTemplate (tbl : TemplatesTable) (req : CreateTemplateReq) :
    TemplatesTable × Template :=
  let rows := if req.is_default then clearDefaults tbl.rows else tbl.rows
  let row : Template :=
    { id := tbl.nextId, name := req.name, description := req.description,
      design_config := req.design_config, is_default := req.is_default,
      thumbnail_path := none }
  ({ rows := rows ++ [row], nextId := tbl.nextId + 1 }, row)

/-- The update request body: `name`/`design_config` are applied under a
JS truthiness check (`none` models absent or falsy), `description`/
`thumbnail_path` under an `!== undefined` check (outer option), and
`is_default` under `!== undefined` with its truthiness deciding the
clear-all step. -/
structure UpdateTemplateReq where
  name : Option String
  description : Option (Option String)
  design_config : Option String
  thumbnail_path : Option (Option String)
  is_default : Option Bool

def applyTemplateUpdates (req : UpdateTemplateReq) (t : Template) : Template :=
  let t1 := match req.name with
    | some n => { t with name := n }
    | none => t
  let t2 := match req.description with
    | some d => { t1 with description := d }
    | none => t1
  let t3 := match req.design_config with
    | some c => { t2 with design_config := c }
    | none => t2
  let t4 := match req.thumbnail_path with
    | some p => { t3 with thumbnail_path := p }
    | none => t3
  match req.is_default with
  | some b => { t4 with is_default := b }
  | none => t4

/-- `PUT /api/templates/:id`: reject an empty update list; when
`is_default` is provided and truthy, clear the flag on all rows first;
then apply the collected updates to the rows matching the id.  The
returned flag is false when no field was provided (the 400 response). -/
def updateTemplate (tbl : TemplatesTable) (tid : Nat)
    (req : UpdateTemplateReq) : TemplatesTable × Bool :=
  if req.name = none ∧ req.description = none ∧ req.design_config = none ∧
      req.thumbnail_path = none ∧ req.is_default = none then
    (tbl, false)
  else
    let rows1 := if req.is_default = some true then clearDefaults tbl.rows
      else tbl.rows
    let rows2 := rows1.map (fun t =>
      if t.id == tid then applyTemplateUpdates req t else t)
    ({ tbl with rows := rows2 }, true)

/-- Ids of the rows currently flagged default. -/
def defaultIds (rows : List Template) : List Nat :=
  (rows.filter (fun t => t.is_default)).map (fun t => t.id)

theorem applyTemplateUpdates_id (req : UpdateTemplateReq) (t : Template) :
    (applyTemplateUpdates req t).id = t.id := by
  cases hn : req.name <;> cases hd : req.description <;>
    cases hc : req.design_config <;> cases htp : req.thumbnail_path <;>
    cases hb : req.is_default <;>
    simp [applyTemplateUpdates, hn, hd, hc, htp, hb]

theorem applyTemplateUpdates_default (req : UpdateTemplateReq) (t : Template)
    (h : req.is_default = some true) :
    (applyTemplateUpdates req t).is_default = true := by
  cases hn : req.name <;> cases hd : req.description <;>
    cases hc : req.design_config <;> cases htp : req.thumbnail_path <;>
    simp [applyTemplateUpdates, hn, hd, hc, htp, h]

theorem applyTemplateUpdates_default_of_none (req : UpdateTemplateReq)
    (t : Template) (h : req.is_default = none) :
    (applyTemplateUpdates req t).is_default = t.is_default := by
  cases hn : req.name <;> cases hd : req.description <;>
    cases hc : req.design_config <;> cases htp : req.thumbnail_path <;>
    simp [applyTemplateUpdates, hn, hd, hc, htp, h]

theorem applyTemplateUpdates_default_of_false (req : UpdateTemplateReq)
    (t : Template) (h : req.is_default = some false) :
    (applyTemplateUpdates req t).is_default = false := by
  cases hn : req.name <;> cases hd : req.description <;>
    cases hc : req.design_config <;> cases htp : req.thumbnail_path <;>
    simp [applyTemplateUpdates, hn, hd, hc, htp, h]

theorem defaultIds_clearDefaults (rows : List Template) :
    defaultIds (clearDefaults rows) = [] := by
  induction rows with
  | nil => rfl
  | cons r rows ih =>
    simp only [clearDefaults, List.map_cons, defaultIds, List.filter_cons]
    simp only [clearDefaults, defaultIds] at ih
    simpa using ih

theorem defaultIds_clear_set_not_mem (req : UpdateTemplateReq) (tid : Nat) :
    ∀ (rows : List Template), tid ∉ rows.map (fun t => t.id) →
    defaultIds ((clearDefaults rows).map (fun t =>
      if t.id == tid then applyTemplateUpdates req t else t)) = [] := by
  intro rows
  induction rows with
  | nil => intro _; rfl
  | cons r rows ih =>
    intro hmem
    have hr : ¬ r.id = tid := by
      intro he
      exact hmem (by simp [he])
    have hrest : tid ∉ rows.map (fun t => t.id) := by
      intro hx
      exact hmem (by simp [hx])
    simp only [clearDefaults, List.map_cons]
    rw [show ((if ({ r with is_default := false } : Template).id == tid then
        applyTemplateUpdates req { r with is_default := false }
        else { r with is_default := false }) : Template) =
        { r with is_default := false } by
      rw [if_neg]
      simp only [beq_iff_eq]
      exact hr]
    simp only [defaultIds, List.filter_cons]
    have ih' := ih hrest
    simp only [clearDefaults, defaultIds] at ih'
    simpa using ih'

theorem defaultIds_clear_set (req : UpdateTemplateReq) (tid : Nat)
    (hset : req.is_default = some true) :
    ∀ (rows : List Template), (rows.map (fun t => t.id)).Nodup →
    tid ∈ rows.map (fun t => t.id) →
    defaultIds ((clearDefaults rows).map (fun t =>
      if t.id == tid then applyTemplateUpdates req t else t)) = [tid] := by
  intro rows
  induction rows with
  | nil => intro _ hmem; cases hmem
  | cons r rows ih =>
    intro hnodup hmem
    rw [List.map_cons] at hnodup hmem
    have hnd := List.nodup_cons.mp hnodup
    by_cases hr : r.id = tid
    · have hrest : tid ∉ rows.map (fun t => t.id) := by
        rw [← hr]
        exact hnd.1
      simp only [clearDefaults, List.map_cons]
      rw [show ((if ({ r with is_default := false } : Template).id == tid then
          applyTemplateUpdates req { r with is_default := false }
          else { r with is_default := false }) : Template) =
          applyTemplateUpdates req { r with is_default := false } by
        rw [if_pos]
        simp only [beq_iff_eq]
        exact hr]
      have h0 := defaultIds_clear_set_not_mem req tid rows hrest
      simp only [clearDefaults, defaultIds] at h0 ⊢
      rw [List.filter_cons, if_pos (by
        simpa using applyTemplateUpdates_default req
          ({ r with is_default := false }) hset)]
      rw [List.map_cons, h0]
      simp [applyTemplateUpdates_id, hr]
    · rcases List.mem_cons.mp hmem with he | hm
      · exact absurd he.symm hr
      simp only [clearDefaults, List.map_cons]
      rw [show ((if ({ r with is_default := false } : Template).id == tid then
          applyTemplateUpdates req { r with is_default := false }
          else { r with is_default := false }) : Template) =
          { r with is_default := false } by
        rw [if_neg]
        simp only [beq_iff_eq]
        exact hr]
      have ih' := ih hnd.2 hm
      simp only [clearDefaults, defaultIds] at ih' ⊢
      rw [List.filter_cons]
      simpa using ih'

/-- Number of rows currently flagged default. -/
def countDefaults (rows : List Template) : Nat :=
  (rows.filter (fun t => t.is_default)).length

theorem defaultIds_append (a b : List Template) :
    defaultIds (a ++ b) = defaultIds a ++ defaultIds b := by
  simp [defaultIds, List.filter_append]

theorem countDefaults_eq_length_defaultIds (rows : List Template) :
    countDefaults rows = (defaultIds rows).length := by
  simp [countDefaults, defaultIds]

theorem countDefaults_map_le (f : Template → Template)
    (hf : ∀ t, (f t).is_default = true → t.is_default = true)
    (rows : List Template) :
    countDefaults (rows.map f) ≤ countDefaults rows := by
  induction rows with
  | nil => exact le_rfl
  | cons r rows ih =>
    simp only [List.map_cons, countDefaults, List.filter_cons]
    by_cases h1 : (f r).is_default = true
    · rw [if_pos (by simpa using h1), if_pos (by simpa using hf r h1)]
      simpa [countDefaults] using ih
    · rw [if_neg (by simpa using h1)]
      by_cases h2 : r.is_default = true
      · rw [if_pos (by simpa using h2)]
        simp only [List.length_cons]
        exact le_trans (by simpa [countDefaults] using ih) (Nat.le_succ _)
      · rw [if_neg (by simpa using h2)]
        simpa [countDefaults] using ih

theorem countDefaults_map_eq (f : Template → Template)
    (hf : ∀ t, (f t).is_default = t.is_default) (rows : List Template) :
    countDefaults (rows.map f) = countDefaults rows := by
  induction rows with
  | nil => rfl
  | cons r rows ih =>
    simp only [List.map_cons, countDefaults, List.filter_cons, hf r]
    by_cases h : r.is_default = true
    · rw [if_pos (by simpa using h), if_pos (by simpa using h)]
      simpa [countDefaults] using ih
    · rw [if_neg (by simpa using h), if_neg (by simpa using h)]
      simpa [countDefaults] using ih

/-- C8: every create or update that flags a template as default first
clears the flag on all rows, so the updated template is the unique
default afterwards; and both operations preserve the at-most-one-default
invariant for arbitrary requests. -/
theorem template_default_unique (tbl : TemplatesTable)
    (req : CreateTemplateReq) (tid : Nat) (upd : UpdateTemplateReq)
    (hnodup : (tbl.rows.map (fun t => t.id)).Nodup)
    (hmem : tid ∈ tbl.rows.map (fun t => t.id)) :
    (req.is_default = true →
      defaultIds (createTemplate tbl req).1.rows = [tbl.nextId]) ∧
      (upd.is_default = some true →
        defaultIds (updateTemplate tbl tid upd).1.rows = [tid]) ∧
      (countDefaults tbl.rows ≤ 1 →
        countDefaults (createTemplate tbl req).1.rows ≤ 1) ∧
      (countDefaults tbl.rows ≤ 1 →
        countDefaults (updateTemplate tbl tid upd).1.rows ≤ 1) := by
  refine ⟨?_, ?_, ?_, ?_⟩
  · intro hdef
    show defaultIds ((if req.is_default then clearDefaults tbl.rows
      else tbl.rows) ++ [_]) = [tbl.nextId]
    rw [if_pos hdef, defaultIds_append, defaultIds_clearDefaults]
    simp [defaultIds, List.filter_cons, hdef]
  · intro hset
    show defaultIds (updateTemplate tbl tid upd).1.rows = [tid]
    unfold updateTemplate
    rw [if_neg (by simp [hset])]
    dsimp only
    rw [if_pos hset]
    exact defaultIds_clear_set upd tid hset tbl.rows hnodup hmem
  · intro hle
    show countDefaults ((if req.is_default then clearDefaults tbl.rows
      else tbl.rows) ++ [_]) ≤ 1
    by_cases hdef : req.is_default = true
    · rw [if_pos hdef, countDefaults_eq_length_defaultIds,
        defaultIds_append, defaultIds_clearDefaults]
      simp [defaultIds, List.filter_cons, hdef]
    · rw [if_neg (by simpa using hdef), countDefaults_eq_length_defaultIds,
        defaultIds_append]
      have : defaultIds
          [({ id := tbl.nextId,
              name := req.name,
              description := req.description,
              design_config := req.design_config,
              is_default := req.is_default,
              thumbnail_path := none } : Template)] = [] := by
        simp [defaultIds, List.filter_cons, hdef]
      rw [this, List.append_nil, ← countDefaults_eq_length_defaultIds]
      exact hle
  · intro hle
    unfold updateTemplate
    split
    · exact hle
    dsimp only
    rcases hb : upd.is_default with _ | b
    · rw [if_neg (by simp)]
      have heq : countDefaults (tbl.rows.map (fun t =>
          if t.id == tid then applyTemplateUpdates upd t else t)) =
          countDefaults tbl.rows := by
        apply countDefaults_map_eq
        intro t
        by_cases hc : (t.id == tid) = true
        · rw [if_pos hc]
          exact applyTemplateUpdates_default_of_none upd t hb
        · rw [if_neg hc]
      rw [heq]
      exact hle
    · cases b
      · rw [if_neg (by simp)]
        have hcle : countDefaults (tbl.rows.map (fun t =>
            if t.id == tid then applyTemplateUpdates upd t else t)) ≤
            countDefaults tbl.rows := by
          apply countDefaults_map_le
          intro t ht
          by_cases hc : (t.id == tid) = true
          · rw [if_pos hc] at ht
            rw [applyTemplateUpdates_default_of_false upd t hb] at ht
            cases ht
          · rw [if_neg hc] at ht
            exact ht
        exact le_trans hcle hle
      · rw [if_pos rfl]
        rw [countDefaults_eq_length_defaultIds,
          defaultIds_clear_set upd tid hb tbl.rows hnodup hmem]
        exact le_rfl

/-- C8 witness: a two-row table where template 1 is default; updating
template 2 to be the default leaves exactly template 2 flagged. -/
theorem template_default_unique_witness :
    defaultIds (updateTemplate
      ⟨[⟨1, "A", none, "cfg", true, none⟩, ⟨2, "B", none, "cfg", false, none⟩],
        3⟩
      2 ⟨none, none, none, none, some true⟩).1.rows = [2] :=
  (template_default_unique
    ⟨[⟨1, "A", none, "cfg", true, none⟩, ⟨2, "B", none, "cfg", false, none⟩],
      3⟩
    ⟨"C", none, "cfg", false⟩ 2 ⟨none, none, none, none, some true⟩
    (by decide) (by decide)).2.1 rfl

end HonorHub
